import Mathlib

/-!
Verification of the mosaic-core Record binary codec (src/record.rs).

The Record codec is embedded shallowly: byte buffers are `List Nat`
(each element standing for one byte), the mutable-buffer writes of
`write_replacement_record` become explicit `setRange` overlays, and the
fallible operations return `Except RecErr`.

External collaborator modules that `lib.rs` declares but whose sources are
not part of the codec file (blake3 hashing, ed25519 keys and prehashed
signatures, `RecordFlags`, `Timestamp`, `Address`) are modelled from the
specification as the parameter structure `Crypto` and the small encoders
below; record.rs itself is translated line by line.
-/

namespace MosaicCore

/-- Padded length, translated from the `padded_len!` macro in record.rs:
`(($len) + 7) & !7` on a 64-bit `usize` (`!7 = 0xFFFFFFFFFFFFFFF8`). -/
def pad8 (n : Nat) : Nat := ((n + 7) % 2 ^ 64) &&& 0xFFFFFFFFFFFFFFF8

/-- Sub-list of the bytes in positions `[a, b)`, the analogue of the Rust
slice expression `buf[a..b]` (in-bounds in every use below). -/
def slice (l : List Nat) (a b : Nat) : List Nat := (l.take b).drop a

/-- Overlay the bytes `v` at offset `i`, the analogue of the Rust statement
`buf[i..i + v.len()].copy_from_slice(v)` (in-bounds in every use below). -/
def setRange (l : List Nat) (i : Nat) (v : List Nat) : List Nat :=
  l.take i ++ v ++ l.drop (i + v.length)

/-- Little-endian byte encoding of `x` on `w` bytes, modelling
`u16::to_le_bytes` / `u32::to_le_bytes` and (modelled from the spec) the
6-byte little-endian `Timestamp::to_bytes`. -/
def leDigits : Nat → Nat → List Nat
  | 0, _ => []
  | w + 1, x => x % 256 :: leDigits w (x / 256)

/-- Big-endian byte encoding of `x` on `w` bytes. Modelled from the spec:
`Timestamp::to_be_bytes` is the 6-byte big-endian serialization used for
the Id time prefix, so that raw byte order equals chronological order. -/
def beDigits : Nat → Nat → List Nat
  | 0, _ => []
  | w + 1, x => x / 256 ^ w % 256 :: beDigits w (x % 256 ^ w)

/-- Value of a little-endian byte list, modelling `u16::from_le_bytes` and
`u32::from_le_bytes`. -/
def leVal (l : List Nat) : Nat := l.foldr (fun b acc => b + 256 * acc) 0

/-- Timestamp parsing. Modelled from the spec: `Timestamp::from_bytes` reads
the 6-byte little-endian field and rejects out-of-range values; the
representable range is taken to be exactly `[0, 2^48)`. -/
def tsFromBytes (l : List Nat) : Option Nat :=
  if leVal l < 2 ^ 48 then some (leVal l) else none

/-- Error kinds of the codec, following the `InnerError` variants used by
record.rs (the error module itself is outside the codec file). -/
inductive RecErr where
  | endOfInput
  | recordTooLong
  | recordTooShort
  | sectionLengthMismatch
  | invalidPublicKey
  | hashMismatch
  | invalidSignature
  | timestampOutOfRange
  | reservedFlagsUsed
  | idZerosAreNotZero
  | endOfOutput
  deriving DecidableEq, Repr

deriving instance DecidableEq for Except

/-- Modelled from the spec: the external collaborators of the codec.
`hash` is the BLAKE3 extendable-output digest restricted to the 64 bytes the
codec reads (record.rs absorbs the hashable region once and reuses the same
digest state as the signature prehash, so the signing functions below
receive that 64-byte digest output); `skPub` is `SecretKey::public()`;
`sign` is `sign_prehashed` with the fixed `b"Mosaic"` context; `sigVerify`
is `verify_prehashed_strict`; `pkValid` is the fallible
`PublicKey::from_bytes`; `flagsAll` is `RecordFlags::all()`, the
reserved-bit mask that must be zero on every valid record. The propositional
fields record the collaborator guarantees the spec relies on: digest and
signature sizes, that a derived public key is well-formed, and that a
signature made with a secret key verifies under its public key. -/
structure Crypto where
  hash : List Nat → List Nat
  skPub : List Nat → List Nat
  sign : List Nat → List Nat → List Nat
  sigVerify : List Nat → List Nat → List Nat → Bool
  pkValid : List Nat → Bool
  flagsAll : Nat
  hash_len : ∀ l, (hash l).length = 64
  skPub_len : ∀ k, (skPub k).length = 32
  sign_len : ∀ k d, (sign k d).length = 64
  pkValid_skPub : ∀ k, pkValid (skPub k) = true
  sign_correct : ∀ k d, sigVerify (skPub k) d (sign k d) = true

/-- Length of the record built from tag and payload bytes,
translated from `RecordParts::record_len`:
`HEADER_LEN + padded_tags_len + padded_payload_len` with `HEADER_LEN = 208`. -/
def recordLen (tags payload : List Nat) : Nat :=
  208 + pad8 tags.length + pad8 payload.length

/-- Tags length accessor, from `Record::tags_len`:
`u16::from_le_bytes(self.0[202..204])`. -/
def tagsLen (r : List Nat) : Nat := leVal (slice r 202 204)

/-- Payload length accessor, from `Record::payload_len`:
`u32::from_le_bytes(self.0[204..208])`. -/
def payloadLen (r : List Nat) : Nat := leVal (slice r 204 208)

/-- Padded tags length, from `Record::tags_padded_len`. -/
def tagsPaddedLen (r : List Nat) : Nat := pad8 (tagsLen r)

/-- Padded payload length, from `Record::payload_padded_len`. -/
def payloadPaddedLen (r : List Nat) : Nat := pad8 (payloadLen r)

/-- Tags bytes accessor, from `Record::tags_bytes`:
`&self.0[208 .. 208 + self.tags_len()]`. -/
def tagsBytes (r : List Nat) : List Nat := slice r 208 (208 + tagsLen r)

/-- Payload bytes accessor, from `Record::payload_bytes`:
`&self.0[start .. start + self.payload_len()]` with
`start = 208 + self.tags_padded_len()`. -/
def payloadBytes (r : List Nat) : List Nat :=
  slice r (208 + tagsPaddedLen r) (208 + tagsPaddedLen r + payloadLen r)

/-- Kind accessor, from `Record::kind`: `u16::from_le_bytes(self.0[158..160])`. -/
def kindOf (r : List Nat) : Nat := leVal (slice r 158 160)

/-- Flags accessor, from `Record::flags`:
`RecordFlags::from_bits_retain(u16::from_le_bytes(self.0[192..194]))`. -/
def flagsOf (r : List Nat) : Nat := leVal (slice r 192 194)

/-- App flags accessor, from `Record::app_flags`:
`u16::from_le_bytes(self.0[200..202])`. -/
def appFlagsOf (r : List Nat) : Nat := leVal (slice r 200 202)

/-- Timestamp accessor, from `Record::timestamp`:
`Timestamp::from_bytes(self.0[194..200]).unwrap()`; `none` models the
panic of the `unwrap` on an out-of-range field. -/
def timestampOf (r : List Nat) : Option Nat := tsFromBytes (slice r 194 200)

/-- Id accessor, from `Record::id`: the 48 bytes `self.0[64..112]`. -/
def idBytes (r : List Nat) : List Nat := slice r 64 112

/-- Address accessor, from `Record::address`: the 48 bytes `self.0[144..192]`. -/
def addressBytes (r : List Nat) : List Nat := slice r 144 192

/-- Nonce accessor, translated from `Record::nonce`:
`self.0[NONCE_RANGE].try_into().unwrap()` with `NONCE_RANGE = 144..158`
and return type `&[u8; 8]`; the `try_into` to an 8-byte array succeeds
exactly when the slice has length 8, and `none` models the panic of the
`unwrap` when it does not. -/
def nonceOf (r : List Nat) : Option (List Nat) :=
  if (slice r 144 158).length = 8 then some (slice r 144 158) else none

/-- Verification, translated from `Record::verify`, in source order:
the two length checks, the section-sum check, the two public-key parses,
the recomputed truncated hash, the prehashed signature (over the same
digest state, here the same `c.hash` value), the timestamp parse, the
reserved-flags check, and the two reserved zero bytes at 70 and 71
(`slice r 70 72 = [0, 0]` is the pair of in-bounds index checks
`self.0[70] != 0 || self.0[71] != 0`). -/
def verify (c : Crypto) (r : List Nat) : Except RecErr Unit :=
  if 1048576 < r.length then .error .recordTooLong
  else if r.length < 208 then .error .recordTooShort
  else if 208 + tagsPaddedLen r + payloadPaddedLen r ≠ r.length then
    .error .sectionLengthMismatch
  else if c.pkValid (slice r 112 144) = false then .error .invalidPublicKey
  else if c.pkValid (slice r 160 192) = false then .error .invalidPublicKey
  else if (c.hash (r.drop 112)).take 40 ≠ slice r 72 112 then .error .hashMismatch
  else if c.sigVerify (slice r 112 144) (c.hash (r.drop 112)) (slice r 0 64) = false then
    .error .invalidSignature
  else if tsFromBytes (slice r 194 200) = none then .error .timestampOutOfRange
  else if flagsOf r &&& c.flagsAll ≠ 0 then .error .reservedFlagsUsed
  else if slice r 70 72 ≠ [0, 0] then .error .idZerosAreNotZero
  else .ok ()

/-- Field writes of `Record::write_replacement_record` that precede the
hash computation, in source order: payload, tags, payload length as
`u32`, tags length as `u16`, app flags, the little-endian timestamp, the
flags, the address, and the signing public key, each copied to its fixed
offset. -/
def writeBody (c : Crypto) (buffer sk address : List Nat)
    (ts flags appFlags : Nat) (tags payload : List Nat) : List Nat :=
  setRange (setRange (setRange (setRange (setRange (setRange (setRange (setRange
    (setRange buffer (208 + pad8 tags.length) payload)
    208 tags)
    204 (leDigits 4 (payload.length % 4294967296)))
    202 (leDigits 2 (tags.length % 65536)))
    200 (leDigits 2 appFlags))
    194 (leDigits 6 ts))
    192 (leDigits 2 flags))
    144 address)
    112 (c.skPub sk)

/-- Final writes of `Record::write_replacement_record`: the truncated
BLAKE3 hash of `buffer[112..]` — note: to the end of the caller's buffer —
then the big-endian time prefix, and the signature over the same digest
state. -/
def writeFinish (c : Crypto) (sk : List Nat) (ts : Nat) (b9 : List Nat) : List Nat :=
  setRange (setRange
    (setRange b9 72 ((c.hash (b9.drop 112)).take 40))
    64 (beDigits 6 ts))
    0 (c.sign sk (c.hash (b9.drop 112)))

/-- Record construction, translated from `Record::write_replacement_record`:
the tag-length, total-length, buffer-size and reserved-flags guards, then
the field writes of `writeBody` and `writeFinish`, returning the view
`&buffer[..len]`. Release configuration: the `cfg!(debug_assertions)`
self-verification is skipped. -/
def writeReplacementRecord (c : Crypto) (buffer sk address : List Nat)
    (ts flags appFlags : Nat) (tags payload : List Nat) : Except RecErr (List Nat) :=
  if 65536 < tags.length then .error .recordTooLong
  else if 1048576 < recordLen tags payload then .error .recordTooLong
  else if buffer.length < recordLen tags payload then .error .endOfOutput
  else if flags &&& c.flagsAll ≠ 0 then .error .reservedFlagsUsed
  else
    .ok ((writeFinish c sk ts
      (writeBody c buffer sk address ts flags appFlags tags payload)).take
        (recordLen tags payload))

/-- Address construction. Modelled from the spec: an Address is the 14-byte
nonce, the Kind as little-endian `u16`, and the 32-byte author public key;
the nonce argument stands for the random or deterministically derived
value, whose generation lives outside the codec file. -/
def mkAddress (nonce : List Nat) (kind : Nat) (authorPk : List Nat) : List Nat :=
  nonce ++ leDigits 2 kind ++ authorPk

/-- Record construction from parts, from `Record::write_record`: derive the
Address from the signing key and the parts (nonce modelled as above) and
delegate to `write_replacement_record`. -/
def writeRecord (c : Crypto) (buffer sk : List Nat) (kind : Nat) (nonce : List Nat)
    (ts flags appFlags : Nat) (tags payload : List Nat) : Except RecErr (List Nat) :=
  writeReplacementRecord c buffer sk (mkAddress nonce kind (c.skPub sk))
    ts flags appFlags tags payload

/-- Owned-record construction, from `OwnedRecord::new` /
`OwnedRecord::new_replacement`: allocate `vec![0; len]` and write into it
(the pre-checks of `new_replacement` repeat the guards of
`write_replacement_record` and change no outcome). -/
def ownedRecordNew (c : Crypto) (sk : List Nat) (kind : Nat) (nonce : List Nat)
    (ts flags appFlags : Nat) (tags payload : List Nat) : Except RecErr (List Nat) :=
  writeRecord c (List.replicate (recordLen tags payload) 0) sk kind nonce
    ts flags appFlags tags payload

/-- Result of `Record::from_bytes`; `oob` models the Rust panic of the
slice expression `&input[..len]` when `len` exceeds the input length. -/
inductive FromBytesResult where
  | ok (r : List Nat)
  | err (e : RecErr)
  | oob
  deriving DecidableEq, Repr

/-- Declared total length computed by `Record::from_bytes` from the two
length fields of the header. -/
def declaredLen (input : List Nat) : Nat :=
  208 + pad8 (tagsLen input) + pad8 (payloadLen input)

/-- Unverified interpretation, translated from `Record::from_bytes`: fail
with `EndOfInput` below the 208-byte header, fail with `RecordTooLong`
above the 1 MiB ceiling, and otherwise evaluate `&input[..len]` — which
panics (`oob`) when the declared length exceeds the input length, since
the code never compares `len` with `input.len()`. -/
def fromBytes (input : List Nat) : FromBytesResult :=
  if input.length < 208 then .err .endOfInput
  else if 1048576 < declaredLen input then .err .recordTooLong
  else if input.length < declaredLen input then .oob
  else .ok (input.take (declaredLen input))

/-- Hashable region of the record a successful construction produces: the
signing public key, the address, flags, timestamp, app flags, the two
length fields, and the two zero-padded sections (bytes 112 to the end). -/
def hashableOf (c : Crypto) (sk address : List Nat) (ts flags appFlags : Nat)
    (tags payload : List Nat) : List Nat :=
  c.skPub sk ++ address ++ leDigits 2 flags ++ leDigits 6 ts ++
    leDigits 2 appFlags ++ leDigits 2 (tags.length % 65536) ++
    leDigits 4 (payload.length % 4294967296) ++ tags ++
    List.replicate (pad8 tags.length - tags.length) 0 ++ payload ++
    List.replicate (pad8 payload.length - payload.length) 0

/-- Normal form of the record written by `write_replacement_record` into a
zero-initialized buffer of exactly the record length: signature, big-endian
time prefix, the two zero bytes, the truncated hash, then the hashable
region. -/
def nfRecord (c : Crypto) (sk address : List Nat) (ts flags appFlags : Nat)
    (tags payload : List Nat) : List Nat :=
  c.sign sk (c.hash (hashableOf c sk address ts flags appFlags tags payload)) ++
    beDigits 6 ts ++ List.replicate 2 0 ++
    (c.hash (hashableOf c sk address ts flags appFlags tags payload)).take 40 ++
    hashableOf c sk address ts flags appFlags tags payload

/-- Bytes that `write_replacement_record` places from offset 112 on when
writing into a general caller buffer: the signing key, address, flags,
timestamp, app flags, the two length fields, the tag bytes, then whatever
the buffer already held in the tag-padding gap, the payload bytes, and the
buffer's own content from the end of the payload on (the constructor never
writes the padding). -/
def wroteTail (c : Crypto) (buffer sk A : List Nat) (ts flags appFlags : Nat)
    (tags payload : List Nat) : List Nat :=
  c.skPub sk ++ (A ++ (leDigits 2 flags ++ (leDigits 6 ts ++ (leDigits 2 appFlags ++
    (leDigits 2 (tags.length % 65536) ++ (leDigits 4 (payload.length % 4294967296) ++
      (tags ++ (slice buffer (208 + tags.length) (208 + pad8 tags.length) ++
        (payload ++ slice buffer (208 + pad8 tags.length + payload.length)
          buffer.length)))))))))

/-- Raw byte comparison of two equal-length byte strings, the order used on
48-byte Ids (`Ord` on byte arrays: lexicographic). -/
def listLtBytes : List Nat → List Nat → Bool
  | [], [] => false
  | [], _ :: _ => true
  | _ :: _, [] => false
  | a :: as, b :: bs => if a < b then true else if a = b then listLtBytes as bs else false

/-- Concrete collaborator instance with a constant digest, used to evaluate
the codec on explicit buffers. -/
def cryptoA : Crypto where
  hash := fun _ => List.replicate 64 0
  skPub := fun _ => List.replicate 32 0
  sign := fun _ _ => List.replicate 64 0
  sigVerify := fun _ _ _ => true
  pkValid := fun _ => true
  flagsAll := 65535
  hash_len := fun _ => List.length_replicate 64 0
  skPub_len := fun _ => List.length_replicate 32 0
  sign_len := fun _ _ => List.length_replicate 64 0
  pkValid_skPub := fun _ => rfl
  sign_correct := fun _ _ => rfl

/-- Concrete collaborator instance whose digest copies its input, so that
the truncated 40-byte hash is sensitive to the first 40 bytes of the
hashable region. -/
def cryptoB : Crypto where
  hash := fun l => (l ++ List.replicate 64 0).take 64
  skPub := fun _ => List.replicate 32 0
  sign := fun _ _ => List.replicate 64 0
  sigVerify := fun _ _ _ => true
  pkValid := fun _ => true
  flagsAll := 65535
  hash_len := by
    intro l
    simp [List.length_take, List.length_append]
  skPub_len := fun _ => List.length_replicate 32 0
  sign_len := fun _ _ => List.length_replicate 64 0
  pkValid_skPub := fun _ => rfl
  sign_correct := fun _ _ => rfl

/-- Concrete collaborator instance whose digest copies its input from
offset 80 on, so that the truncated 40-byte hash is sensitive to the bytes
around the header length fields of a 208-byte record. -/
def cryptoC : Crypto where
  hash := fun l => (l.drop 80 ++ List.replicate 64 0).take 64
  skPub := fun _ => List.replicate 32 0
  sign := fun _ _ => List.replicate 64 0
  sigVerify := fun _ _ _ => true
  pkValid := fun _ => true
  flagsAll := 65535
  hash_len := by
    intro l
    simp [List.length_take, List.length_append]
  skPub_len := fun _ => List.length_replicate 32 0
  sign_len := fun _ _ => List.length_replicate 64 0
  pkValid_skPub := fun _ => rfl
  sign_correct := fun _ _ => rfl

/-- A 208-byte destination buffer whose byte 70 is nonzero: dirty in one of
the positions `write_replacement_record` never writes. -/
def dirtyBuffer : List Nat := List.replicate 70 0 ++ [1] ++ List.replicate 137 0

/-- The record `write_record` produces in `dirtyBuffer` from empty tags and
payload. -/
def dirtyResult : List Nat :=
  match writeRecord cryptoA dirtyBuffer [] 0 (List.replicate 14 0) 0 0 0 [] [] with
  | .ok r => r
  | _ => []

/-- A 208-byte input whose declared tag length is 1, so the declared total
length is 216, longer than the input itself. -/
def c2FailInput : List Nat := List.replicate 202 0 ++ [1, 0] ++ List.replicate 4 0

/-- A valid 208-byte record under `cryptoA` whose little-endian timestamp
field holds 5 but whose big-endian Id time prefix starts with 9. -/
def forgedPrefixRecord : List Nat :=
  setRange (setRange (List.replicate 208 0) 194 [5, 0, 0, 0, 0, 0]) 64 [9, 0, 0, 0, 0, 0]

/-- A valid 208-byte record under `cryptoA` whose timestamp field holds 6
and whose Id time prefix is all zero. -/
def laterPlainRecord : List Nat := setRange (List.replicate 208 0) 194 [6, 0, 0, 0, 0, 0]

/-- The record built by `ownedRecordNew` under `cryptoA` with timestamp 1. -/
def ordRecordA : List Nat :=
  match ownedRecordNew cryptoA [] 0 (List.replicate 14 0) 1 0 0 [] [] with
  | .ok r => r
  | _ => []

/-- The record built by `ownedRecordNew` under `cryptoA` with timestamp 2. -/
def ordRecordB : List Nat :=
  match ownedRecordNew cryptoA [] 0 (List.replicate 14 0) 2 0 0 [] [] with
  | .ok r => r
  | _ => []

/-- A 208-byte buffer with a reserved flag bit set at byte 192 and a wrong
stored hash byte at byte 72. -/
def reservedFlagBadHash : List Nat :=
  setRange (setRange (List.replicate 208 0) 192 [1, 0]) 72 [5]

set_option maxRecDepth 40000

/-! ### Arithmetic facts about `pad8` -/

lemma land_high_mask (x : Nat) (hx : x < 2 ^ 64) :
    x &&& 0xFFFFFFFFFFFFFFF8 = x - x % 8 := by
  have hmask : (0xFFFFFFFFFFFFFFF8 : Nat) = (2 ^ 61 - 1) <<< 3 := by
    rw [Nat.shiftLeft_eq]
    norm_num
  have hr : x - x % 8 = (x >>> 3) <<< 3 := by
    rw [Nat.shiftRight_eq_div_pow, Nat.shiftLeft_eq]
    have h8 : (2 : Nat) ^ 3 = 8 := by norm_num
    rw [h8]
    omega
  rw [hmask, hr]
  apply Nat.eq_of_testBit_eq
  intro i
  rw [Nat.testBit_land, Nat.testBit_shiftLeft, Nat.testBit_shiftLeft,
    Nat.testBit_two_pow_sub_one, Nat.testBit_shiftRight]
  by_cases h3 : 3 ≤ i
  · by_cases h64 : i < 64
    · have h1 : i - 3 < 61 := by omega
      have h2 : 3 + (i - 3) = i := by omega
      simp [h3, h1, h2, ge_iff_le]
    · have hz : x.testBit i = false :=
        Nat.testBit_lt_two_pow
          (lt_of_lt_of_le hx (Nat.pow_le_pow_right (by norm_num) (by omega)))
      have h1 : ¬ i - 3 < 61 := by omega
      have h2 : 3 + (i - 3) = i := by omega
      simp [h3, h1, h2, hz, ge_iff_le]
  · simp [h3, ge_iff_le]

lemma pad8_eq (n : Nat) (h : n + 7 < 2 ^ 64) : pad8 n = n + 7 - (n + 7) % 8 := by
  unfold pad8
  rw [Nat.mod_eq_of_lt h]
  exact land_high_mask (n + 7) h

/-! ### Byte-encoding facts -/

lemma length_leDigits (w : Nat) : ∀ x : Nat, (leDigits w x).length = w := by
  induction w with
  | zero => intro x; rfl
  | succ w ih => intro x; simp [leDigits, ih]

lemma length_beDigits (w : Nat) : ∀ x : Nat, (beDigits w x).length = w := by
  induction w with
  | zero => intro x; rfl
  | succ w ih => intro x; simp [beDigits, ih]

lemma leVal_cons (a : Nat) (l : List Nat) : leVal (a :: l) = a + 256 * leVal l := rfl

lemma leVal_leDigits (w : Nat) : ∀ x : Nat, leVal (leDigits w x) = x % 256 ^ w := by
  induction w with
  | zero => intro x; simp [leDigits, leVal, Nat.mod_one]
  | succ w ih =>
    intro x
    rw [leDigits, leVal_cons, ih, pow_succ]
    rw [mul_comm (256 ^ w) 256, Nat.mod_mul]

/-! ### Slice and overlay toolkit -/

lemma slice_shift (x y : List Nat) (a b : Nat) (hxa : x.length ≤ a) (hab : a ≤ b) :
    slice (x ++ y) a b = slice y (a - x.length) (b - x.length) := by
  unfold slice
  rw [List.take_append_eq_append_take, List.take_of_length_le (le_trans hxa hab),
    List.drop_append_eq_append_drop, List.drop_of_length_le hxa, List.nil_append]

lemma slice_here (x y : List Nat) (n : Nat) (h : x.length = n) :
    slice (x ++ y) 0 n = x := by
  unfold slice
  rw [List.take_left' h, List.drop_zero]

lemma setRange_replicate (k i : Nat) (v rest : List Nat) (h : i + v.length ≤ k) :
    setRange (List.replicate k 0 ++ rest) i v =
      List.replicate i 0 ++ (v ++ (List.replicate (k - (i + v.length)) 0 ++ rest)) := by
  unfold setRange
  rw [List.take_append_eq_append_take, List.take_replicate,
    List.drop_append_eq_append_drop, List.drop_replicate]
  have h1 : i ⊓ k = i := by omega
  have h2 : i - (List.replicate k (0 : Nat)).length = 0 := by simp; omega
  have h3 : i + v.length - (List.replicate k (0 : Nat)).length = 0 := by simp; omega
  rw [h1, h2, h3]
  simp

lemma setRange_replicate_only (k i : Nat) (v : List Nat) (h : i + v.length ≤ k) :
    setRange (List.replicate k 0) i v =
      List.replicate i 0 ++ (v ++ List.replicate (k - (i + v.length)) 0) := by
  have h0 := setRange_replicate k i v [] h
  simpa using h0

lemma setRange_append (x y v : List Nat) (i : Nat) (h : x.length ≤ i) :
    setRange (x ++ y) i v = x ++ setRange y (i - x.length) v := by
  unfold setRange
  rw [List.take_append_eq_append_take, List.take_of_length_le h,
    List.drop_append_eq_append_drop,
    List.drop_of_length_le (by omega : x.length ≤ i + v.length)]
  have h1 : i + v.length - x.length = i - x.length + v.length := by omega
  rw [h1, List.nil_append]
  simp [List.append_assoc]

/-! ### Normal form of a freshly written record -/

lemma writeBody_nf (c : Crypto) (sk A : List Nat) (ts flags app : Nat)
    (tags payload : List Nat) (hA : A.length = 48) (ht : tags.length ≤ 65536)
    (hpw : payload.length + 7 < 2 ^ 64) :
    writeBody c (List.replicate (recordLen tags payload) 0) sk A ts flags app
        tags payload =
      List.replicate 112 0 ++ hashableOf c sk A ts flags app tags payload := by
  have hT := pad8_eq tags.length (by omega)
  have hP := pad8_eq payload.length hpw
  have htT : tags.length ≤ pad8 tags.length := by omega
  have hpP : payload.length ≤ pad8 payload.length := by omega
  have h1 : setRange (List.replicate (recordLen tags payload) 0)
      (208 + pad8 tags.length) payload =
      List.replicate (208 + pad8 tags.length) 0 ++
        (payload ++ List.replicate (pad8 payload.length - payload.length) 0) := by
    rw [setRange_replicate_only (recordLen tags payload) (208 + pad8 tags.length)
      payload (by unfold recordLen; omega)]
    have e1 : recordLen tags payload - (208 + pad8 tags.length + payload.length) =
        pad8 payload.length - payload.length := by
      unfold recordLen; omega
    rw [e1]
  have h2 : setRange (List.replicate (208 + pad8 tags.length) 0 ++
      (payload ++ List.replicate (pad8 payload.length - payload.length) 0)) 208 tags =
      List.replicate 208 0 ++
        (tags ++ (List.replicate (pad8 tags.length - tags.length) 0 ++
          (payload ++ List.replicate (pad8 payload.length - payload.length) 0))) := by
    rw [List.replicate_add, List.append_assoc]
    rw [setRange_append (List.replicate 208 0) _ tags 208 (by simp)]
    simp only [List.length_replicate, Nat.sub_self]
    rw [setRange_replicate (pad8 tags.length) 0 tags _ (by omega)]
    simp
  have h3 : setRange (List.replicate 208 0 ++
      (tags ++ (List.replicate (pad8 tags.length - tags.length) 0 ++
        (payload ++ List.replicate (pad8 payload.length - payload.length) 0))))
      204 (leDigits 4 (payload.length % 4294967296)) =
      List.replicate 204 0 ++
        (leDigits 4 (payload.length % 4294967296) ++
          (tags ++ (List.replicate (pad8 tags.length - tags.length) 0 ++
            (payload ++ List.replicate (pad8 payload.length - payload.length) 0)))) := by
    rw [setRange_replicate 208 204 _ _ (by rw [length_leDigits] <;> omega)]
    simp [length_leDigits]
  have h4 : setRange (List.replicate 204 0 ++
      (leDigits 4 (payload.length % 4294967296) ++
        (tags ++ (List.replicate (pad8 tags.length - tags.length) 0 ++
          (payload ++ List.replicate (pad8 payload.length - payload.length) 0)))))
      202 (leDigits 2 (tags.length % 65536)) =
      List.replicate 202 0 ++
        (leDigits 2 (tags.length % 65536) ++
          (leDigits 4 (payload.length % 4294967296) ++
            (tags ++ (List.replicate (pad8 tags.length - tags.length) 0 ++
              (payload ++ List.replicate (pad8 payload.length - payload.length) 0))))) := by
    rw [setRange_replicate 204 202 _ _ (by rw [length_leDigits] <;> omega)]
    simp [length_leDigits]
  have h5 : setRange (List.replicate 202 0 ++
      (leDigits 2 (tags.length % 65536) ++
        (leDigits 4 (payload.length % 4294967296) ++
          (tags ++ (List.replicate (pad8 tags.length - tags.length) 0 ++
            (payload ++ List.replicate (pad8 payload.length - payload.length) 0))))))
      200 (leDigits 2 app) =
      List.replicate 200 0 ++
        (leDigits 2 app ++
          (leDigits 2 (tags.length % 65536) ++
            (leDigits 4 (payload.length % 4294967296) ++
              (tags ++ (List.replicate (pad8 tags.length - tags.length) 0 ++
                (payload ++ List.replicate (pad8 payload.length - payload.length) 0)))))) := by
    rw [setRange_replicate 202 200 _ _ (by rw [length_leDigits] <;> omega)]
    simp [length_leDigits]
  have h6 : setRange (List.replicate 200 0 ++
      (leDigits 2 app ++
        (leDigits 2 (tags.length % 65536) ++
          (leDigits 4 (payload.length % 4294967296) ++
            (tags ++ (List.replicate (pad8 tags.length - tags.length) 0 ++
              (payload ++ List.replicate (pad8 payload.length - payload.length) 0)))))))
      194 (leDigits 6 ts) =
      List.replicate 194 0 ++
        (leDigits 6 ts ++
          (leDigits 2 app ++
            (leDigits 2 (tags.length % 65536) ++
              (leDigits 4 (payload.length % 4294967296) ++
                (tags ++ (List.replicate (pad8 tags.length - tags.length) 0 ++
                  (payload ++
                    List.replicate (pad8 payload.length - payload.length) 0))))))) := by
    rw [setRange_replicate 200 194 _ _ (by rw [length_leDigits] <;> omega)]
    simp [length_leDigits]
  have h7 : setRange (List.replicate 194 0 ++
      (leDigits 6 ts ++
        (leDigits 2 app ++
          (leDigits 2 (tags.length % 65536) ++
            (leDigits 4 (payload.length % 4294967296) ++
              (tags ++ (List.replicate (pad8 tags.length - tags.length) 0 ++
                (payload ++ List.replicate (pad8 payload.length - payload.length) 0))))))))
      192 (leDigits 2 flags) =
      List.replicate 192 0 ++
        (leDigits 2 flags ++
          (leDigits 6 ts ++
            (leDigits 2 app ++
              (leDigits 2 (tags.length % 65536) ++
                (leDigits 4 (payload.length % 4294967296) ++
                  (tags ++ (List.replicate (pad8 tags.length - tags.length) 0 ++
                    (payload ++
                      List.replicate (pad8 payload.length - payload.length) 0)))))))) := by
    rw [setRange_replicate 194 192 _ _ (by rw [length_leDigits] <;> omega)]
    simp [length_leDigits]
  have h8 : setRange (List.replicate 192 0 ++
      (leDigits 2 flags ++
        (leDigits 6 ts ++
          (leDigits 2 app ++
            (leDigits 2 (tags.length % 65536) ++
              (leDigits 4 (payload.length % 4294967296) ++
                (tags ++ (List.replicate (pad8 tags.length - tags.length) 0 ++
                  (payload ++
                    List.replicate (pad8 payload.length - payload.length) 0)))))))))
      144 A =
      List.replicate 144 0 ++
        (A ++
          (leDigits 2 flags ++
            (leDigits 6 ts ++
              (leDigits 2 app ++
                (leDigits 2 (tags.length % 65536) ++
                  (leDigits 4 (payload.length % 4294967296) ++
                    (tags ++ (List.replicate (pad8 tags.length - tags.length) 0 ++
                      (payload ++
                        List.replicate (pad8 payload.length - payload.length) 0))))))))) := by
    rw [setRange_replicate 192 144 _ _ (by rw [hA] <;> omega)]
    simp [hA]
  have h9 : setRange (List.replicate 144 0 ++
      (A ++
        (leDigits 2 flags ++
          (leDigits 6 ts ++
            (leDigits 2 app ++
              (leDigits 2 (tags.length % 65536) ++
                (leDigits 4 (payload.length % 4294967296) ++
                  (tags ++ (List.replicate (pad8 tags.length - tags.length) 0 ++
                    (payload ++
                      List.replicate (pad8 payload.length - payload.length) 0))))))))))
      112 (c.skPub sk) =
      List.replicate 112 0 ++
        (c.skPub sk ++
          (A ++
            (leDigits 2 flags ++
              (leDigits 6 ts ++
                (leDigits 2 app ++
                  (leDigits 2 (tags.length % 65536) ++
                    (leDigits 4 (payload.length % 4294967296) ++
                      (tags ++ (List.replicate (pad8 tags.length - tags.length) 0 ++
                        (payload ++
                          List.replicate
                            (pad8 payload.length - payload.length) 0)))))))))) := by
    rw [setRange_replicate 144 112 _ _ (by rw [c.skPub_len] <;> omega)]
    simp [c.skPub_len]
  unfold writeBody
  rw [h1, h2, h3, h4, h5, h6, h7, h8, h9]
  unfold hashableOf
  simp [List.append_assoc]

lemma writeFinish_nf (c : Crypto) (sk HB : List Nat) (ts : Nat) :
    writeFinish c sk ts (List.replicate 112 0 ++ HB) =
      c.sign sk (c.hash HB) ++
        (beDigits 6 ts ++ (List.replicate 2 0 ++ ((c.hash HB).take 40 ++ HB))) := by
  unfold writeFinish
  have hdrop : (List.replicate 112 (0 : Nat) ++ HB).drop 112 = HB :=
    List.drop_left' (by simp)
  rw [hdrop]
  have h40 : ((c.hash HB).take 40).length = 40 := by
    rw [List.length_take, c.hash_len] <;> omega
  have h1 : setRange (List.replicate 112 0 ++ HB) 72 ((c.hash HB).take 40) =
      List.replicate 72 0 ++ ((c.hash HB).take 40 ++ HB) := by
    rw [setRange_replicate 112 72 _ _ (by rw [h40] <;> omega)]
    simp [h40]
  rw [h1]
  have h2 : setRange (List.replicate 72 0 ++ ((c.hash HB).take 40 ++ HB)) 64
      (beDigits 6 ts) =
      List.replicate 64 0 ++
        (beDigits 6 ts ++ (List.replicate 2 0 ++ ((c.hash HB).take 40 ++ HB))) := by
    rw [setRange_replicate 72 64 _ _ (by rw [length_beDigits] <;> omega)]
    simp [length_beDigits]
  rw [h2]
  have h3 : setRange (List.replicate 64 0 ++
      (beDigits 6 ts ++ (List.replicate 2 0 ++ ((c.hash HB).take 40 ++ HB)))) 0
      (c.sign sk (c.hash HB)) =
      c.sign sk (c.hash HB) ++
        (beDigits 6 ts ++ (List.replicate 2 0 ++ ((c.hash HB).take 40 ++ HB))) := by
    rw [setRange_replicate 64 0 _ _ (by rw [c.sign_len] <;> omega)]
    simp [c.sign_len]
  rw [h3]

lemma length_hashableOf (c : Crypto) (sk A : List Nat) (ts flags app : Nat)
    (tags payload : List Nat) (hA : A.length = 48) (ht : tags.length ≤ 65536)
    (hpw : payload.length + 7 < 2 ^ 64) :
    (hashableOf c sk A ts flags app tags payload).length =
      96 + pad8 tags.length + pad8 payload.length := by
  have hT := pad8_eq tags.length (by omega)
  have hP := pad8_eq payload.length hpw
  unfold hashableOf
  simp [List.length_append, length_leDigits, c.skPub_len, hA]
  omega

lemma length_nfRecord (c : Crypto) (sk A : List Nat) (ts flags app : Nat)
    (tags payload : List Nat) (hA : A.length = 48) (ht : tags.length ≤ 65536)
    (hpw : payload.length + 7 < 2 ^ 64) :
    (nfRecord c sk A ts flags app tags payload).length = recordLen tags payload := by
  unfold nfRecord recordLen
  simp [List.length_append, length_beDigits, c.sign_len, List.length_take, c.hash_len,
    length_hashableOf c sk A ts flags app tags payload hA ht hpw]
  omega

lemma writeReplacement_nf (c : Crypto) (sk A : List Nat) (ts flags app : Nat)
    (tags payload : List Nat) (hA : A.length = 48) (ht : tags.length ≤ 65536)
    (hpw : payload.length + 7 < 2 ^ 64) (hlen : recordLen tags payload ≤ 1048576)
    (hfr : flags &&& c.flagsAll = 0) :
    writeReplacementRecord c (List.replicate (recordLen tags payload) 0) sk A
        ts flags app tags payload =
      .ok (nfRecord c sk A ts flags app tags payload) := by
  unfold writeReplacementRecord
  rw [if_neg (by omega), if_neg (by omega), if_neg (by simp), if_neg (by simp [hfr])]
  rw [writeBody_nf c sk A ts flags app tags payload hA ht hpw]
  rw [writeFinish_nf c sk (hashableOf c sk A ts flags app tags payload) ts]
  have hlist : (c.sign sk (c.hash (hashableOf c sk A ts flags app tags payload)) ++
      (beDigits 6 ts ++ (List.replicate 2 0 ++
        ((c.hash (hashableOf c sk A ts flags app tags payload)).take 40 ++
          hashableOf c sk A ts flags app tags payload)))).length =
      recordLen tags payload := by
    simp [List.length_append, length_beDigits, c.sign_len, List.length_take, c.hash_len,
      length_hashableOf c sk A ts flags app tags payload hA ht hpw]
    unfold recordLen
    omega
  rw [← hlist, List.take_length]
  unfold nfRecord
  simp [List.append_assoc]

/-! ### Field extraction from the normal form -/

lemma slice_shift' (x y : List Nat) (n a b : Nat) (hx : x.length = n)
    (hna : n ≤ a) (hab : a ≤ b) :
    slice (x ++ y) a b = slice y (a - n) (b - n) := by
  subst hx
  exact slice_shift x y a b hna hab

lemma hashable_decomp (c : Crypto) (sk A : List Nat) (ts flags app : Nat)
    (tags payload : List Nat) :
    hashableOf c sk A ts flags app tags payload =
      c.skPub sk ++ (A ++ (leDigits 2 flags ++ (leDigits 6 ts ++ (leDigits 2 app ++
        (leDigits 2 (tags.length % 65536) ++
          (leDigits 4 (payload.length % 4294967296) ++
            (tags ++ (List.replicate (pad8 tags.length - tags.length) 0 ++
              (payload ++
                List.replicate (pad8 payload.length - payload.length) 0))))))))) := by
  unfold hashableOf
  simp [List.append_assoc]

lemma hashable_decomp96 (c : Crypto) (sk A : List Nat) (ts flags app : Nat)
    (tags payload : List Nat) :
    hashableOf c sk A ts flags app tags payload =
      (c.skPub sk ++ (A ++ (leDigits 2 flags ++ (leDigits 6 ts ++ (leDigits 2 app ++
        (leDigits 2 (tags.length % 65536) ++
          leDigits 4 (payload.length % 4294967296))))))) ++
      (tags ++ (List.replicate (pad8 tags.length - tags.length) 0 ++
        (payload ++ List.replicate (pad8 payload.length - payload.length) 0))) := by
  unfold hashableOf
  simp [List.append_assoc]

lemma length_head96 (c : Crypto) (sk A : List Nat) (ts flags app : Nat)
    (tags payload : List Nat) (hA : A.length = 48) :
    (c.skPub sk ++ (A ++ (leDigits 2 flags ++ (leDigits 6 ts ++ (leDigits 2 app ++
      (leDigits 2 (tags.length % 65536) ++
        leDigits 4 (payload.length % 4294967296))))))).length = 96 := by
  simp [List.length_append, c.skPub_len, hA, length_leDigits]

lemma hb_pk (c : Crypto) (sk A : List Nat) (ts flags app : Nat)
    (tags payload : List Nat) :
    slice (hashableOf c sk A ts flags app tags payload) 0 32 = c.skPub sk := by
  rw [hashable_decomp]
  exact slice_here _ _ 32 (c.skPub_len sk)

lemma hb_flags (c : Crypto) (sk A : List Nat) (ts flags app : Nat)
    (tags payload : List Nat) (hA : A.length = 48) :
    slice (hashableOf c sk A ts flags app tags payload) 80 82 = leDigits 2 flags := by
  rw [hashable_decomp]
  rw [slice_shift' _ _ 32 80 82 (c.skPub_len sk) (by omega) (by omega)]
  norm_num
  rw [slice_shift' _ _ 48 48 50 hA (by omega) (by omega)]
  norm_num
  exact slice_here _ _ 2 (length_leDigits 2 flags)

lemma hb_ts (c : Crypto) (sk A : List Nat) (ts flags app : Nat)
    (tags payload : List Nat) (hA : A.length = 48) :
    slice (hashableOf c sk A ts flags app tags payload) 82 88 = leDigits 6 ts := by
  rw [hashable_decomp]
  rw [slice_shift' _ _ 32 82 88 (c.skPub_len sk) (by omega) (by omega)]
  norm_num
  rw [slice_shift' _ _ 48 50 56 hA (by omega) (by omega)]
  norm_num
  rw [slice_shift' _ _ 2 2 8 (length_leDigits 2 flags) (by omega) (by omega)]
  norm_num
  exact slice_here _ _ 6 (length_leDigits 6 ts)

lemma hb_app (c : Crypto) (sk A : List Nat) (ts flags app : Nat)
    (tags payload : List Nat) (hA : A.length = 48) :
    slice (hashableOf c sk A ts flags app tags payload) 88 90 = leDigits 2 app := by
  rw [hashable_decomp]
  rw [slice_shift' _ _ 32 88 90 (c.skPub_len sk) (by omega) (by omega)]
  norm_num
  rw [slice_shift' _ _ 48 56 58 hA (by omega) (by omega)]
  norm_num
  rw [slice_shift' _ _ 2 8 10 (length_leDigits 2 flags) (by omega) (by omega)]
  norm_num
  rw [slice_shift' _ _ 6 6 8 (length_leDigits 6 ts) (by omega) (by omega)]
  norm_num
  exact slice_here _ _ 2 (length_leDigits 2 app)

lemma hb_lt (c : Crypto) (sk A : List Nat) (ts flags app : Nat)
    (tags payload : List Nat) (hA : A.length = 48) :
    slice (hashableOf c sk A ts flags app tags payload) 90 92 =
      leDigits 2 (tags.length % 65536) := by
  rw [hashable_decomp]
  rw [slice_shift' _ _ 32 90 92 (c.skPub_len sk) (by omega) (by omega)]
  norm_num
  rw [slice_shift' _ _ 48 58 60 hA (by omega) (by omega)]
  norm_num
  rw [slice_shift' _ _ 2 10 12 (length_leDigits 2 flags) (by omega) (by omega)]
  norm_num
  rw [slice_shift' _ _ 6 8 10 (length_leDigits 6 ts) (by omega) (by omega)]
  norm_num
  rw [slice_shift' _ _ 2 2 4 (length_leDigits 2 app) (by omega) (by omega)]
  norm_num
  exact slice_here _ _ 2 (length_leDigits 2 (tags.length % 65536))

lemma hb_lp (c : Crypto) (sk A : List Nat) (ts flags app : Nat)
    (tags payload : List Nat) (hA : A.length = 48) :
    slice (hashableOf c sk A ts flags app tags payload) 92 96 =
      leDigits 4 (payload.length % 4294967296) := by
  rw [hashable_decomp]
  rw [slice_shift' _ _ 32 92 96 (c.skPub_len sk) (by omega) (by omega)]
  norm_num
  rw [slice_shift' _ _ 48 60 64 hA (by omega) (by omega)]
  norm_num
  rw [slice_shift' _ _ 2 12 16 (length_leDigits 2 flags) (by omega) (by omega)]
  norm_num
  rw [slice_shift' _ _ 6 10 14 (length_leDigits 6 ts) (by omega) (by omega)]
  norm_num
  rw [slice_shift' _ _ 2 4 8 (length_leDigits 2 app) (by omega) (by omega)]
  norm_num
  rw [slice_shift' _ _ 2 2 6 (length_leDigits 2 (tags.length % 65536))
    (by omega) (by omega)]
  norm_num
  exact slice_here _ _ 4 (length_leDigits 4 (payload.length % 4294967296))

lemma hb_author (c : Crypto) (sk nonce apk : List Nat) (kind ts flags app : Nat)
    (tags payload : List Nat) (hn : nonce.length = 14) (hapk : apk.length = 32) :
    slice (hashableOf c sk (mkAddress nonce kind apk) ts flags app tags payload)
      48 80 = apk := by
  rw [hashable_decomp]
  rw [slice_shift' _ _ 32 48 80 (c.skPub_len sk) (by omega) (by omega)]
  norm_num
  unfold mkAddress
  rw [List.append_assoc]
  rw [slice_shift' _ _ 16 16 48 (by simp [hn, length_leDigits]) (by omega) (by omega)]
  norm_num
  exact slice_here _ _ 32 hapk

lemma hb_kind (c : Crypto) (sk nonce apk : List Nat) (kind ts flags app : Nat)
    (tags payload : List Nat) (hn : nonce.length = 14) (hapk : apk.length = 32) :
    slice (hashableOf c sk (mkAddress nonce kind apk) ts flags app tags payload)
      46 48 = leDigits 2 kind := by
  rw [hashable_decomp]
  rw [slice_shift' _ _ 32 46 48 (c.skPub_len sk) (by omega) (by omega)]
  norm_num
  unfold mkAddress
  rw [List.append_assoc, List.append_assoc]
  rw [slice_shift' _ _ 14 14 16 hn (by omega) (by omega)]
  norm_num
  exact slice_here _ _ 2 (length_leDigits 2 kind)

lemma hb_tags (c : Crypto) (sk A : List Nat) (ts flags app : Nat)
    (tags payload : List Nat) (hA : A.length = 48) :
    slice (hashableOf c sk A ts flags app tags payload) 96 (96 + tags.length) =
      tags := by
  rw [hashable_decomp96]
  rw [slice_shift' _ _ 96 96 (96 + tags.length)
    (length_head96 c sk A ts flags app tags payload hA) (by omega) (by omega)]
  have e1 : 96 - 96 = 0 := by omega
  have e2 : 96 + tags.length - 96 = tags.length := by omega
  rw [e1, e2]
  exact slice_here _ _ tags.length rfl

lemma hb_payload (c : Crypto) (sk A : List Nat) (ts flags app : Nat)
    (tags payload : List Nat) (hA : A.length = 48) (ht : tags.length ≤ 65536) :
    slice (hashableOf c sk A ts flags app tags payload)
      (96 + pad8 tags.length) (96 + pad8 tags.length + payload.length) = payload := by
  have hT := pad8_eq tags.length (by omega)
  have htT : tags.length ≤ pad8 tags.length := by omega
  rw [hashable_decomp96]
  rw [slice_shift' _ _ 96 (96 + pad8 tags.length)
    (96 + pad8 tags.length + payload.length)
    (length_head96 c sk A ts flags app tags payload hA) (by omega) (by omega)]
  have e1 : 96 + pad8 tags.length - 96 = pad8 tags.length := by omega
  have e2 : 96 + pad8 tags.length + payload.length - 96 =
      pad8 tags.length + payload.length := by omega
  rw [e1, e2]
  rw [slice_shift' tags _ tags.length (pad8 tags.length)
    (pad8 tags.length + payload.length) rfl (by omega) (by omega)]
  have e2b : pad8 tags.length + payload.length - tags.length =
      pad8 tags.length - tags.length + payload.length := by omega
  rw [e2b]
  rw [slice_shift' _ _ (pad8 tags.length - tags.length)
    (pad8 tags.length - tags.length)
    (pad8 tags.length - tags.length + payload.length)
    (List.length_replicate _ _) (by omega) (by omega)]
  have e3 : pad8 tags.length - tags.length - (pad8 tags.length - tags.length) = 0 := by
    omega
  have e4 : pad8 tags.length - tags.length + payload.length -
      (pad8 tags.length - tags.length) = payload.length := by omega
  rw [e3, e4]
  exact slice_here _ _ payload.length rfl

lemma nf_decomp (c : Crypto) (sk A : List Nat) (ts flags app : Nat)
    (tags payload : List Nat) :
    nfRecord c sk A ts flags app tags payload =
      (c.sign sk (c.hash (hashableOf c sk A ts flags app tags payload)) ++
        (beDigits 6 ts ++ (List.replicate 2 0 ++
          (c.hash (hashableOf c sk A ts flags app tags payload)).take 40))) ++
      hashableOf c sk A ts flags app tags payload := by
  unfold nfRecord
  simp [List.append_assoc]

lemma length_hdr112 (c : Crypto) (sk A : List Nat) (ts flags app : Nat)
    (tags payload : List Nat) :
    (c.sign sk (c.hash (hashableOf c sk A ts flags app tags payload)) ++
      (beDigits 6 ts ++ (List.replicate 2 0 ++
        (c.hash (hashableOf c sk A ts flags app tags payload)).take 40))).length =
      112 := by
  simp [List.length_append, c.sign_len, length_beDigits, List.length_take, c.hash_len]

lemma nf_slice_high (c : Crypto) (sk A : List Nat) (ts flags app : Nat)
    (tags payload : List Nat) (a b : Nat) (ha : 112 ≤ a) (hab : a ≤ b) :
    slice (nfRecord c sk A ts flags app tags payload) a b =
      slice (hashableOf c sk A ts flags app tags payload) (a - 112) (b - 112) := by
  rw [nf_decomp]
  exact slice_shift' _ _ 112 a b (length_hdr112 c sk A ts flags app tags payload) ha hab

lemma nf_dropHB (c : Crypto) (sk A : List Nat) (ts flags app : Nat)
    (tags payload : List Nat) :
    (nfRecord c sk A ts flags app tags payload).drop 112 =
      hashableOf c sk A ts flags app tags payload := by
  rw [nf_decomp]
  exact List.drop_left' (length_hdr112 c sk A ts flags app tags payload)

lemma nf_sig (c : Crypto) (sk A : List Nat) (ts flags app : Nat)
    (tags payload : List Nat) :
    slice (nfRecord c sk A ts flags app tags payload) 0 64 =
      c.sign sk (c.hash (hashableOf c sk A ts flags app tags payload)) := by
  unfold nfRecord
  rw [List.append_assoc, List.append_assoc, List.append_assoc]
  exact slice_here _ _ 64 (c.sign_len sk _)

lemma nf_zeros (c : Crypto) (sk A : List Nat) (ts flags app : Nat)
    (tags payload : List Nat) :
    slice (nfRecord c sk A ts flags app tags payload) 70 72 = [0, 0] := by
  unfold nfRecord
  rw [List.append_assoc, List.append_assoc, List.append_assoc]
  rw [slice_shift' _ _ 64 70 72 (c.sign_len sk _) (by omega) (by omega)]
  norm_num
  rw [slice_shift' _ _ 6 6 8 (length_beDigits 6 ts) (by omega) (by omega)]
  norm_num
  have h2 : (List.replicate 2 (0 : Nat)).length = 2 := by simp
  rw [slice_here _ _ 2 h2]
  rfl

lemma nf_hash (c : Crypto) (sk A : List Nat) (ts flags app : Nat)
    (tags payload : List Nat) :
    slice (nfRecord c sk A ts flags app tags payload) 72 112 =
      (c.hash (hashableOf c sk A ts flags app tags payload)).take 40 := by
  unfold nfRecord
  rw [List.append_assoc, List.append_assoc, List.append_assoc]
  rw [slice_shift' _ _ 64 72 112 (c.sign_len sk _) (by omega) (by omega)]
  norm_num
  rw [slice_shift' _ _ 6 8 48 (length_beDigits 6 ts) (by omega) (by omega)]
  norm_num
  have h2 : (List.replicate 2 (0 : Nat)).length = 2 := by simp
  rw [slice_shift' _ _ 2 2 42 h2 (by omega) (by omega)]
  norm_num
  exact slice_here _ _ 40 (by rw [List.length_take, c.hash_len] <;> omega)

lemma nf_id (c : Crypto) (sk A : List Nat) (ts flags app : Nat)
    (tags payload : List Nat) :
    idBytes (nfRecord c sk A ts flags app tags payload) =
      beDigits 6 ts ++ (List.replicate 2 0 ++
        (c.hash (hashableOf c sk A ts flags app tags payload)).take 40) := by
  unfold idBytes nfRecord
  rw [List.append_assoc, List.append_assoc, List.append_assoc]
  rw [slice_shift' _ _ 64 64 112 (c.sign_len sk _) (by omega) (by omega)]
  norm_num
  rw [show beDigits 6 ts ++ (List.replicate 2 0 ++
      ((c.hash (hashableOf c sk A ts flags app tags payload)).take 40 ++
        hashableOf c sk A ts flags app tags payload)) =
      (beDigits 6 ts ++ (List.replicate 2 0 ++
        (c.hash (hashableOf c sk A ts flags app tags payload)).take 40)) ++
        hashableOf c sk A ts flags app tags payload by simp [List.append_assoc]]
  exact slice_here _ _ 48 (by
    simp [List.length_append, length_beDigits, List.length_take, c.hash_len])

lemma nf_tagsLen (c : Crypto) (sk A : List Nat) (ts flags app : Nat)
    (tags payload : List Nat) (hA : A.length = 48) :
    tagsLen (nfRecord c sk A ts flags app tags payload) = tags.length % 65536 := by
  unfold tagsLen
  rw [nf_slice_high c sk A ts flags app tags payload 202 204 (by omega) (by omega)]
  norm_num
  rw [hb_lt c sk A ts flags app tags payload hA]
  rw [leVal_leDigits]
  norm_num

lemma nf_payloadLen (c : Crypto) (sk A : List Nat) (ts flags app : Nat)
    (tags payload : List Nat) (hA : A.length = 48) :
    payloadLen (nfRecord c sk A ts flags app tags payload) =
      payload.length % 4294967296 := by
  unfold payloadLen
  rw [nf_slice_high c sk A ts flags app tags payload 204 208 (by omega) (by omega)]
  norm_num
  rw [hb_lp c sk A ts flags app tags payload hA]
  rw [leVal_leDigits]
  norm_num

lemma nf_flags (c : Crypto) (sk A : List Nat) (ts flags app : Nat)
    (tags payload : List Nat) (hA : A.length = 48) :
    flagsOf (nfRecord c sk A ts flags app tags payload) = flags % 65536 := by
  unfold flagsOf
  rw [nf_slice_high c sk A ts flags app tags payload 192 194 (by omega) (by omega)]
  norm_num
  rw [hb_flags c sk A ts flags app tags payload hA]
  rw [leVal_leDigits]
  norm_num

lemma nf_app (c : Crypto) (sk A : List Nat) (ts flags app : Nat)
    (tags payload : List Nat) (hA : A.length = 48) :
    appFlagsOf (nfRecord c sk A ts flags app tags payload) = app % 65536 := by
  unfold appFlagsOf
  rw [nf_slice_high c sk A ts flags app tags payload 200 202 (by omega) (by omega)]
  norm_num
  rw [hb_app c sk A ts flags app tags payload hA]
  rw [leVal_leDigits]
  norm_num

lemma nf_tsSlice (c : Crypto) (sk A : List Nat) (ts flags app : Nat)
    (tags payload : List Nat) (hA : A.length = 48) :
    slice (nfRecord c sk A ts flags app tags payload) 194 200 = leDigits 6 ts := by
  rw [nf_slice_high c sk A ts flags app tags payload 194 200 (by omega) (by omega)]
  norm_num
  exact hb_ts c sk A ts flags app tags payload hA

lemma nf_timestamp (c : Crypto) (sk A : List Nat) (ts flags app : Nat)
    (tags payload : List Nat) (hA : A.length = 48) (hts : ts < 2 ^ 48) :
    timestampOf (nfRecord c sk A ts flags app tags payload) = some ts := by
  unfold timestampOf
  rw [nf_tsSlice c sk A ts flags app tags payload hA]
  unfold tsFromBytes
  rw [leVal_leDigits]
  have e6 : (256 : Nat) ^ 6 = 2 ^ 48 := by norm_num
  rw [e6, Nat.mod_eq_of_lt hts, if_pos hts]

lemma nf_kind (c : Crypto) (sk nonce apk : List Nat) (kind ts flags app : Nat)
    (tags payload : List Nat) (hn : nonce.length = 14) (hapk : apk.length = 32) :
    kindOf (nfRecord c sk (mkAddress nonce kind apk) ts flags app tags payload) =
      kind % 65536 := by
  unfold kindOf
  rw [nf_slice_high c sk _ ts flags app tags payload 158 160 (by omega) (by omega)]
  norm_num
  rw [hb_kind c sk nonce apk kind ts flags app tags payload hn hapk]
  rw [leVal_leDigits]
  norm_num

lemma nf_tagsBytes (c : Crypto) (sk A : List Nat) (ts flags app : Nat)
    (tags payload : List Nat) (hA : A.length = 48) (ht : tags.length ≤ 65535) :
    tagsBytes (nfRecord c sk A ts flags app tags payload) = tags := by
  unfold tagsBytes
  rw [nf_tagsLen c sk A ts flags app tags payload hA]
  have e : tags.length % 65536 = tags.length := by omega
  rw [e]
  rw [nf_slice_high c sk A ts flags app tags payload 208 (208 + tags.length)
    (by omega) (by omega)]
  have e1 : 208 - 112 = 96 := by omega
  have e2 : 208 + tags.length - 112 = 96 + tags.length := by omega
  rw [e1, e2]
  exact hb_tags c sk A ts flags app tags payload hA

lemma nf_payloadBytes (c : Crypto) (sk A : List Nat) (ts flags app : Nat)
    (tags payload : List Nat) (hA : A.length = 48) (ht : tags.length ≤ 65535)
    (hp32 : payload.length < 4294967296) :
    payloadBytes (nfRecord c sk A ts flags app tags payload) = payload := by
  unfold payloadBytes tagsPaddedLen
  rw [nf_tagsLen c sk A ts flags app tags payload hA,
    nf_payloadLen c sk A ts flags app tags payload hA]
  have e : tags.length % 65536 = tags.length := by omega
  have e2 : payload.length % 4294967296 = payload.length := by omega
  rw [e, e2]
  rw [nf_slice_high c sk A ts flags app tags payload (208 + pad8 tags.length)
    (208 + pad8 tags.length + payload.length) (by omega) (by omega)]
  have e3 : 208 + pad8 tags.length - 112 = 96 + pad8 tags.length := by omega
  have e4 : 208 + pad8 tags.length + payload.length - 112 =
      96 + pad8 tags.length + payload.length := by omega
  rw [e3, e4]
  exact hb_payload c sk A ts flags app tags payload hA (by omega)

lemma mkAddress_length (c : Crypto) (sk nonce : List Nat) (kind : Nat)
    (hn : nonce.length = 14) :
    (mkAddress nonce kind (c.skPub sk)).length = 48 := by
  simp [mkAddress, List.length_append, hn, length_leDigits, c.skPub_len]

lemma nf_verify (c : Crypto) (sk nonce : List Nat) (kind ts flags app : Nat)
    (tags payload : List Nat) (hn : nonce.length = 14) (hts : ts < 2 ^ 48)
    (hf : flags < 65536) (hfr : flags &&& c.flagsAll = 0) (ht : tags.length ≤ 65535)
    (hpw : payload.length + 7 < 2 ^ 64) (hlen : recordLen tags payload ≤ 1048576) :
    verify c
      (nfRecord c sk (mkAddress nonce kind (c.skPub sk)) ts flags app tags payload) =
      .ok () := by
  have hA := mkAddress_length c sk nonce kind hn
  have ht6 : tags.length ≤ 65536 := by omega
  have hT := pad8_eq tags.length (by omega)
  have hP := pad8_eq payload.length hpw
  have hp32 : payload.length < 4294967296 := by
    unfold recordLen at hlen
    omega
  have hlnf := length_nfRecord c sk (mkAddress nonce kind (c.skPub sk)) ts flags app
    tags payload hA ht6 hpw
  unfold verify
  rw [if_neg (by
    rw [hlnf]
    unfold recordLen at *
    omega)]
  rw [if_neg (by
    rw [hlnf]
    unfold recordLen at *
    omega)]
  rw [if_neg (by
    unfold tagsPaddedLen payloadPaddedLen
    rw [hlnf, nf_tagsLen c sk _ ts flags app tags payload hA,
      nf_payloadLen c sk _ ts flags app tags payload hA]
    have e : tags.length % 65536 = tags.length := by omega
    have e2 : payload.length % 4294967296 = payload.length := by omega
    rw [e, e2]
    unfold recordLen
    omega)]
  have epk : slice
      (nfRecord c sk (mkAddress nonce kind (c.skPub sk)) ts flags app tags payload)
      112 144 = c.skPub sk := by
    rw [nf_slice_high c sk _ ts flags app tags payload 112 144 (by omega) (by omega)]
    norm_num
    exact hb_pk c sk _ ts flags app tags payload
  rw [if_neg (by
    rw [epk, c.pkValid_skPub]
    simp)]
  have eauthor : slice
      (nfRecord c sk (mkAddress nonce kind (c.skPub sk)) ts flags app tags payload)
      160 192 = c.skPub sk := by
    rw [nf_slice_high c sk _ ts flags app tags payload 160 192 (by omega) (by omega)]
    norm_num
    exact hb_author c sk nonce (c.skPub sk) kind ts flags app tags payload hn
      (c.skPub_len sk)
  rw [if_neg (by
    rw [eauthor, c.pkValid_skPub]
    simp)]
  rw [if_neg (by
    rw [nf_dropHB c sk _ ts flags app tags payload,
      nf_hash c sk _ ts flags app tags payload]
    simp)]
  rw [if_neg (by
    rw [nf_dropHB c sk _ ts flags app tags payload, epk,
      nf_sig c sk _ ts flags app tags payload, c.sign_correct]
    simp)]
  rw [if_neg (by
    rw [nf_tsSlice c sk _ ts flags app tags payload hA]
    unfold tsFromBytes
    rw [leVal_leDigits]
    have e6 : (256 : Nat) ^ 6 = 2 ^ 48 := by norm_num
    rw [e6, Nat.mod_eq_of_lt hts, if_pos hts]
    simp)]
  rw [if_neg (by
    rw [nf_flags c sk _ ts flags app tags payload hA, Nat.mod_eq_of_lt hf, hfr]
    simp)]
  rw [if_neg (by
    rw [nf_zeros c sk _ ts flags app tags payload]
    simp)]

lemma ownedNew_eq (c : Crypto) (sk nonce : List Nat) (kind ts flags app : Nat)
    (tags payload : List Nat) (hn : nonce.length = 14) (ht : tags.length ≤ 65536)
    (hpw : payload.length + 7 < 2 ^ 64) (hlen : recordLen tags payload ≤ 1048576)
    (hfr : flags &&& c.flagsAll = 0) :
    ownedRecordNew c sk kind nonce ts flags app tags payload =
      .ok (nfRecord c sk (mkAddress nonce kind (c.skPub sk)) ts flags app
        tags payload) := by
  unfold ownedRecordNew writeRecord
  exact writeReplacement_nf c sk _ ts flags app tags payload
    (mkAddress_length c sk nonce kind hn) ht hpw hlen hfr

/-! ### Verification inversion and tamper stability -/

lemma take_set_of_le (l : List Nat) (i n b : Nat) (h : n ≤ i) :
    (l.set i b).take n = l.take n := by
  rw [List.set_eq_take_append_cons_drop]
  by_cases hi : i < l.length
  · rw [if_pos hi, List.take_append_eq_append_take, List.take_take]
    have e : n ⊓ i = n := by omega
    have e2 : n - (List.take i l).length = 0 := by
      rw [List.length_take]
      omega
    rw [e, e2, List.take_zero, List.append_nil]
  · rw [if_neg hi]

lemma slice_set_of_le (l : List Nat) (i a b v : Nat) (h : b ≤ i) :
    slice (l.set i v) a b = slice l a b := by
  unfold slice
  rw [take_set_of_le l i b v h]

/-! ### Normal form of a record written into a general caller buffer -/

lemma slice_nil (l : List Nat) (a : Nat) : slice l a a = [] := by
  unfold slice
  apply List.drop_of_length_le
  rw [List.length_take]
  omega

lemma length_slice (l : List Nat) (a b : Nat) :
    (slice l a b).length = b ⊓ l.length - a := by
  unfold slice
  rw [List.length_drop, List.length_take]

lemma slice_take (l : List Nat) (n a b : Nat) (h : b ≤ n) :
    slice (l.take n) a b = slice l a b := by
  unfold slice
  rw [List.take_take]
  have e : b ⊓ n = b := by omega
  rw [e]

lemma setRange_whole (b v : List Nat) (i : Nat) (h : i + v.length ≤ b.length) :
    setRange b i v = b.take i ++ (v ++ slice b (i + v.length) b.length) := by
  unfold setRange slice
  rw [List.take_length]
  simp [List.append_assoc]

lemma setRange_front (k i : Nat) (b v rest : List Nat) (h : i + v.length ≤ k)
    (hk : k ≤ b.length) :
    setRange (b.take k ++ rest) i v =
      b.take i ++ (v ++ (slice b (i + v.length) k ++ rest)) := by
  unfold setRange slice
  have hkb : (b.take k).length = k := by
    rw [List.length_take]
    omega
  rw [List.take_append_eq_append_take, List.drop_append_eq_append_drop, hkb]
  have e1 : i - k = 0 := by omega
  have e2 : i + v.length - k = 0 := by omega
  rw [e1, e2, List.take_zero, List.drop_zero, List.take_take]
  have e3 : i ⊓ k = i := by omega
  rw [e3]
  simp [List.append_assoc]

lemma writeRB_gen (c : Crypto) (buffer sk A : List Nat) (ts flags app : Nat)
    (tags payload : List Nat) (hA : A.length = 48) (ht : tags.length ≤ 65536)
    (hpw : payload.length + 7 < 2 ^ 64)
    (hbuf : 208 + pad8 tags.length + pad8 payload.length ≤ buffer.length) :
    writeFinish c sk ts (writeBody c buffer sk A ts flags app tags payload) =
      c.sign sk (c.hash (wroteTail c buffer sk A ts flags app tags payload)) ++
        (beDigits 6 ts ++ (slice buffer 70 72 ++
          ((c.hash (wroteTail c buffer sk A ts flags app tags payload)).take 40 ++
            wroteTail c buffer sk A ts flags app tags payload))) := by
  have hT := pad8_eq tags.length (by omega)
  have hP := pad8_eq payload.length hpw
  have htT : tags.length ≤ pad8 tags.length := by omega
  have hpP : payload.length ≤ pad8 payload.length := by omega
  have g1 : setRange buffer (208 + pad8 tags.length) payload =
      buffer.take (208 + pad8 tags.length) ++
        (payload ++ slice buffer (208 + pad8 tags.length + payload.length)
          buffer.length) := by
    rw [setRange_whole buffer payload (208 + pad8 tags.length) (by omega)]
  have g2 : setRange (buffer.take (208 + pad8 tags.length) ++
      (payload ++ slice buffer (208 + pad8 tags.length + payload.length)
        buffer.length)) 208 tags =
      buffer.take 208 ++
        (tags ++ (slice buffer (208 + tags.length) (208 + pad8 tags.length) ++
          (payload ++ slice buffer (208 + pad8 tags.length + payload.length)
            buffer.length))) := by
    rw [setRange_front (208 + pad8 tags.length) 208 buffer tags _ (by omega) (by omega)]
  have g3 : setRange (buffer.take 208 ++
      (tags ++ (slice buffer (208 + tags.length) (208 + pad8 tags.length) ++
        (payload ++ slice buffer (208 + pad8 tags.length + payload.length)
          buffer.length))))
      204 (leDigits 4 (payload.length % 4294967296)) =
      buffer.take 204 ++
        (leDigits 4 (payload.length % 4294967296) ++
          (tags ++ (slice buffer (208 + tags.length) (208 + pad8 tags.length) ++
            (payload ++ slice buffer (208 + pad8 tags.length + payload.length)
              buffer.length)))) := by
    rw [setRange_front 208 204 buffer _ _ (by rw [length_leDigits] <;> omega)
      (by omega)]
    simp [length_leDigits, slice_nil]
  have g4 : setRange (buffer.take 204 ++
      (leDigits 4 (payload.length % 4294967296) ++
        (tags ++ (slice buffer (208 + tags.length) (208 + pad8 tags.length) ++
          (payload ++ slice buffer (208 + pad8 tags.length + payload.length)
            buffer.length)))))
      202 (leDigits 2 (tags.length % 65536)) =
      buffer.take 202 ++
        (leDigits 2 (tags.length % 65536) ++
          (leDigits 4 (payload.length % 4294967296) ++
            (tags ++ (slice buffer (208 + tags.length) (208 + pad8 tags.length) ++
              (payload ++ slice buffer (208 + pad8 tags.length + payload.length)
                buffer.length))))) := by
    rw [setRange_front 204 202 buffer _ _ (by rw [length_leDigits] <;> omega)
      (by omega)]
    simp [length_leDigits, slice_nil]
  have g5 : setRange (buffer.take 202 ++
      (leDigits 2 (tags.length % 65536) ++
        (leDigits 4 (payload.length % 4294967296) ++
          (tags ++ (slice buffer (208 + tags.length) (208 + pad8 tags.length) ++
            (payload ++ slice buffer (208 + pad8 tags.length + payload.length)
              buffer.length))))))
      200 (leDigits 2 app) =
      buffer.take 200 ++
        (leDigits 2 app ++
          (leDigits 2 (tags.length % 65536) ++
            (leDigits 4 (payload.length % 4294967296) ++
              (tags ++ (slice buffer (208 + tags.length) (208 + pad8 tags.length) ++
                (payload ++ slice buffer (208 + pad8 tags.length + payload.length)
                  buffer.length)))))) := by
    rw [setRange_front 202 200 buffer _ _ (by rw [length_leDigits] <;> omega)
      (by omega)]
    simp [length_leDigits, slice_nil]
  have g6 : setRange (buffer.take 200 ++
      (leDigits 2 app ++
        (leDigits 2 (tags.length % 65536) ++
          (leDigits 4 (payload.length % 4294967296) ++
            (tags ++ (slice buffer (208 + tags.length) (208 + pad8 tags.length) ++
              (payload ++ slice buffer (208 + pad8 tags.length + payload.length)
                buffer.length)))))))
      194 (leDigits 6 ts) =
      buffer.take 194 ++
        (leDigits 6 ts ++
          (leDigits 2 app ++
            (leDigits 2 (tags.length % 65536) ++
              (leDigits 4 (payload.length % 4294967296) ++
                (tags ++ (slice buffer (208 + tags.length) (208 + pad8 tags.length) ++
                  (payload ++
                    slice buffer (208 + pad8 tags.length + payload.length)
                      buffer.length))))))) := by
    rw [setRange_front 200 194 buffer _ _ (by rw [length_leDigits] <;> omega)
      (by omega)]
    simp [length_leDigits, slice_nil]
  have g7 : setRange (buffer.take 194 ++
      (leDigits 6 ts ++
        (leDigits 2 app ++
          (leDigits 2 (tags.length % 65536) ++
            (leDigits 4 (payload.length % 4294967296) ++
              (tags ++ (slice buffer (208 + tags.length) (208 + pad8 tags.length) ++
                (payload ++
                  slice buffer (208 + pad8 tags.length + payload.length)
                    buffer.length))))))))
      192 (leDigits 2 flags) =
      buffer.take 192 ++
        (leDigits 2 flags ++
          (leDigits 6 ts ++
            (leDigits 2 app ++
              (leDigits 2 (tags.length % 65536) ++
                (leDigits 4 (payload.length % 4294967296) ++
                  (tags ++
                    (slice buffer (208 + tags.length) (208 + pad8 tags.length) ++
                      (payload ++
                        slice buffer (208 + pad8 tags.length + payload.length)
                          buffer.length)))))))) := by
    rw [setRange_front 194 192 buffer _ _ (by rw [length_leDigits] <;> omega)
      (by omega)]
    simp [length_leDigits, slice_nil]
  have g8 : setRange (buffer.take 192 ++
      (leDigits 2 flags ++
        (leDigits 6 ts ++
          (leDigits 2 app ++
            (leDigits 2 (tags.length % 65536) ++
              (leDigits 4 (payload.length % 4294967296) ++
                (tags ++
                  (slice buffer (208 + tags.length) (208 + pad8 tags.length) ++
                    (payload ++
                      slice buffer (208 + pad8 tags.length + payload.length)
                        buffer.length)))))))))
      144 A =
      buffer.take 144 ++
        (A ++
          (leDigits 2 flags ++
            (leDigits 6 ts ++
              (leDigits 2 app ++
                (leDigits 2 (tags.length % 65536) ++
                  (leDigits 4 (payload.length % 4294967296) ++
                    (tags ++
                      (slice buffer (208 + tags.length) (208 + pad8 tags.length) ++
                        (payload ++
                          slice buffer (208 + pad8 tags.length + payload.length)
                            buffer.length))))))))) := by
    rw [setRange_front 192 144 buffer _ _ (by rw [hA] <;> omega) (by omega)]
    simp [hA, slice_nil]
  have g9 : setRange (buffer.take 144 ++
      (A ++
        (leDigits 2 flags ++
          (leDigits 6 ts ++
            (leDigits 2 app ++
              (leDigits 2 (tags.length % 65536) ++
                (leDigits 4 (payload.length % 4294967296) ++
                  (tags ++
                    (slice buffer (208 + tags.length) (208 + pad8 tags.length) ++
                      (payload ++
                        slice buffer (208 + pad8 tags.length + payload.length)
                          buffer.length))))))))))
      112 (c.skPub sk) =
      buffer.take 112 ++ wroteTail c buffer sk A ts flags app tags payload := by
    rw [setRange_front 144 112 buffer _ _ (by rw [c.skPub_len] <;> omega) (by omega)]
    unfold wroteTail
    simp [c.skPub_len, slice_nil]
  unfold writeFinish writeBody
  rw [g1, g2, g3, g4, g5, g6, g7, g8, g9]
  have hd : (buffer.take 112 ++ wroteTail c buffer sk A ts flags app tags payload).drop
      112 = wroteTail c buffer sk A ts flags app tags payload :=
    List.drop_left' (by rw [List.length_take] <;> omega)
  rw [hd]
  have f1 : setRange (buffer.take 112 ++ wroteTail c buffer sk A ts flags app
      tags payload) 72
      ((c.hash (wroteTail c buffer sk A ts flags app tags payload)).take 40) =
      buffer.take 72 ++
        ((c.hash (wroteTail c buffer sk A ts flags app tags payload)).take 40 ++
          wroteTail c buffer sk A ts flags app tags payload) := by
    rw [setRange_front 112 72 buffer _ _
      (by rw [List.length_take, c.hash_len] <;> omega) (by omega)]
    have h40 : ((c.hash (wroteTail c buffer sk A ts flags app tags payload)).take
        40).length = 40 := by
      rw [List.length_take, c.hash_len] <;> omega
    rw [h40]
    simp [slice_nil]
  rw [f1]
  have f2 : setRange (buffer.take 72 ++
      ((c.hash (wroteTail c buffer sk A ts flags app tags payload)).take 40 ++
        wroteTail c buffer sk A ts flags app tags payload)) 64 (beDigits 6 ts) =
      buffer.take 64 ++
        (beDigits 6 ts ++ (slice buffer 70 72 ++
          ((c.hash (wroteTail c buffer sk A ts flags app tags payload)).take 40 ++
            wroteTail c buffer sk A ts flags app tags payload))) := by
    rw [setRange_front 72 64 buffer _ _ (by rw [length_beDigits] <;> omega)
      (by omega)]
    simp [length_beDigits]
  rw [f2]
  have f3 : setRange (buffer.take 64 ++
      (beDigits 6 ts ++ (slice buffer 70 72 ++
        ((c.hash (wroteTail c buffer sk A ts flags app tags payload)).take 40 ++
          wroteTail c buffer sk A ts flags app tags payload)))) 0
      (c.sign sk (c.hash (wroteTail c buffer sk A ts flags app tags payload))) =
      c.sign sk (c.hash (wroteTail c buffer sk A ts flags app tags payload)) ++
        (beDigits 6 ts ++ (slice buffer 70 72 ++
          ((c.hash (wroteTail c buffer sk A ts flags app tags payload)).take 40 ++
            wroteTail c buffer sk A ts flags app tags payload))) := by
    rw [setRange_front 64 0 buffer _ _ (by rw [c.sign_len] <;> omega) (by omega)]
    simp [c.sign_len, slice_nil]
  rw [f3]

lemma length_wroteTail (c : Crypto) (buffer sk A : List Nat) (ts flags app : Nat)
    (tags payload : List Nat) (hA : A.length = 48) (ht : tags.length ≤ 65536)
    (hpw : payload.length + 7 < 2 ^ 64)
    (hbuf : 208 + pad8 tags.length + pad8 payload.length ≤ buffer.length) :
    (wroteTail c buffer sk A ts flags app tags payload).length =
      buffer.length - 112 := by
  have hT := pad8_eq tags.length (by omega)
  have hP := pad8_eq payload.length hpw
  unfold wroteTail
  simp [List.length_append, c.skPub_len, hA, length_leDigits, length_slice]
  omega

lemma gen_wtLt (c : Crypto) (buffer sk A : List Nat) (ts flags app : Nat)
    (tags payload : List Nat) (hA : A.length = 48) :
    slice (wroteTail c buffer sk A ts flags app tags payload) 90 92 =
      leDigits 2 (tags.length % 65536) := by
  unfold wroteTail
  rw [slice_shift' _ _ 32 90 92 (c.skPub_len sk) (by omega) (by omega)]
  norm_num
  rw [slice_shift' _ _ 48 58 60 hA (by omega) (by omega)]
  norm_num
  rw [slice_shift' _ _ 2 10 12 (length_leDigits 2 flags) (by omega) (by omega)]
  norm_num
  rw [slice_shift' _ _ 6 8 10 (length_leDigits 6 ts) (by omega) (by omega)]
  norm_num
  rw [slice_shift' _ _ 2 2 4 (length_leDigits 2 app) (by omega) (by omega)]
  norm_num
  exact slice_here _ _ 2 (length_leDigits 2 (tags.length % 65536))

lemma gen_wtLp (c : Crypto) (buffer sk A : List Nat) (ts flags app : Nat)
    (tags payload : List Nat) (hA : A.length = 48) :
    slice (wroteTail c buffer sk A ts flags app tags payload) 92 96 =
      leDigits 4 (payload.length % 4294967296) := by
  unfold wroteTail
  rw [slice_shift' _ _ 32 92 96 (c.skPub_len sk) (by omega) (by omega)]
  norm_num
  rw [slice_shift' _ _ 48 60 64 hA (by omega) (by omega)]
  norm_num
  rw [slice_shift' _ _ 2 12 16 (length_leDigits 2 flags) (by omega) (by omega)]
  norm_num
  rw [slice_shift' _ _ 6 10 14 (length_leDigits 6 ts) (by omega) (by omega)]
  norm_num
  rw [slice_shift' _ _ 2 4 8 (length_leDigits 2 app) (by omega) (by omega)]
  norm_num
  rw [slice_shift' _ _ 2 2 6 (length_leDigits 2 (tags.length % 65536))
    (by omega) (by omega)]
  norm_num
  exact slice_here _ _ 4 (length_leDigits 4 (payload.length % 4294967296))

lemma gen_decomp (c : Crypto) (buffer sk A : List Nat) (ts flags app : Nat)
    (tags payload : List Nat) :
    c.sign sk (c.hash (wroteTail c buffer sk A ts flags app tags payload)) ++
      (beDigits 6 ts ++ (slice buffer 70 72 ++
        ((c.hash (wroteTail c buffer sk A ts flags app tags payload)).take 40 ++
          wroteTail c buffer sk A ts flags app tags payload))) =
    (c.sign sk (c.hash (wroteTail c buffer sk A ts flags app tags payload)) ++
      (beDigits 6 ts ++ (slice buffer 70 72 ++
        (c.hash (wroteTail c buffer sk A ts flags app tags payload)).take 40))) ++
      wroteTail c buffer sk A ts flags app tags payload := by
  simp [List.append_assoc]

lemma length_genHdr (c : Crypto) (buffer sk A : List Nat) (ts flags app : Nat)
    (tags payload : List Nat) (hb72 : 72 ≤ buffer.length) :
    (c.sign sk (c.hash (wroteTail c buffer sk A ts flags app tags payload)) ++
      (beDigits 6 ts ++ (slice buffer 70 72 ++
        (c.hash (wroteTail c buffer sk A ts flags app tags
          payload)).take 40))).length = 112 := by
  simp [List.length_append, c.sign_len, length_beDigits, length_slice,
    List.length_take, c.hash_len]
  omega

set_option maxHeartbeats 1600000 in
lemma verify_ok_facts {c : Crypto} {r : List Nat} (hv : verify c r = .ok ()) :
    r.length ≤ 1048576 ∧ 208 ≤ r.length ∧
    208 + tagsPaddedLen r + payloadPaddedLen r = r.length ∧
    slice r 72 112 = (c.hash (r.drop 112)).take 40 := by
  unfold verify at hv
  split_ifs at hv with h1 h2 h3 h4 h5 h6 h7 h8 h9 h10 <;>
    first
      | exact Except.noConfusion hv
      | exact ⟨by omega, by omega, by omega, (not_not.mp h6).symm⟩

/-! ### Byte order on Ids -/

lemma listLtBytes_append (x : List Nat) : ∀ (y u v : List Nat),
    x.length = y.length → listLtBytes x y = true →
    listLtBytes (x ++ u) (y ++ v) = true := by
  induction x with
  | nil =>
    intro y u v hl h
    cases y with
    | nil => simp [listLtBytes] at h
    | cons b bs => simp at hl
  | cons a as ih =>
    intro y u v hl h
    cases y with
    | nil => simp at hl
    | cons b bs =>
      simp only [List.cons_append]
      unfold listLtBytes at h ⊢
      by_cases hab : a < b
      · simp [hab]
      · rw [if_neg hab] at h ⊢
        by_cases heq : a = b
        · rw [if_pos heq] at h ⊢
          exact ih bs u v (by simpa using hl) h
        · rw [if_neg heq] at h
          exact absurd h (by simp)

lemma beDigits_lt (w : Nat) : ∀ a b : Nat, a < b → b < 256 ^ w →
    listLtBytes (beDigits w a) (beDigits w b) = true := by
  induction w with
  | zero =>
    intro a b hab hb
    rw [pow_zero] at hb
    omega
  | succ w ih =>
    intro a b hab hb
    have hpow : 0 < 256 ^ w := by positivity
    have hb' : b / 256 ^ w < 256 := by
      rw [Nat.div_lt_iff_lt_mul hpow]
      rw [pow_succ] at hb
      omega
    have ha' : a / 256 ^ w < 256 := by
      rw [Nat.div_lt_iff_lt_mul hpow]
      rw [pow_succ] at hb
      omega
    unfold beDigits
    rw [Nat.mod_eq_of_lt ha', Nat.mod_eq_of_lt hb']
    by_cases hq : a / 256 ^ w < b / 256 ^ w
    · unfold listLtBytes
      rw [if_pos hq]
    · have hqe : a / 256 ^ w = b / 256 ^ w := by
        have hle : a / 256 ^ w ≤ b / 256 ^ w := Nat.div_le_div_right (le_of_lt hab)
        omega
      have h1 := Nat.div_add_mod a (256 ^ w)
      have h2 := Nat.div_add_mod b (256 ^ w)
      rw [hqe] at h1
      have hmod : a % 256 ^ w < b % 256 ^ w := by omega
      have hmb : b % 256 ^ w < 256 ^ w := Nat.mod_lt _ hpow
      unfold listLtBytes
      rw [hqe, if_neg (lt_irrefl _), if_pos rfl]
      exact ih _ _ hmod hmb

/-! ### Claim theorems -/

/-- Claim C9: the padded length used by the codec equals `(L + 7) & !7`, and
for every length `L` that fits a `usize` computation this value is the
smallest multiple of 8 that is at least `L`. -/
theorem c9_pad8_smallest (L : Nat) (h : L + 7 < 2 ^ 64) :
    pad8 L = (L + 7) &&& 0xFFFFFFFFFFFFFFF8 ∧
    pad8 L % 8 = 0 ∧ L ≤ pad8 L ∧
    ∀ m : Nat, m % 8 = 0 → L ≤ m → pad8 L ≤ m := by
  have he := pad8_eq L h
  refine ⟨?_, by omega, by omega, ?_⟩
  · unfold pad8
    rw [Nat.mod_eq_of_lt h]
  · intro m hm hLm
    omega

/-- Witness for C9 at `L = 11`: `pad8 11 = 16`, a multiple of 8, at least
11, and minimal among multiples of 8 at least 11 (instantiated at 16). -/
theorem c9_pad8_smallest_witness :
    pad8 11 % 8 = 0 ∧ 11 ≤ pad8 11 ∧ pad8 11 ≤ 16 ∧ pad8 11 = 16 :=
  ⟨(c9_pad8_smallest 11 (by decide)).2.1, (c9_pad8_smallest 11 (by decide)).2.2.1,
   (c9_pad8_smallest 11 (by decide)).2.2.2 16 (by decide) (by decide), by decide⟩

/-- Claim C2, failing input: a 208-byte input whose declared tag length is 1
makes `Record::from_bytes` evaluate `&input[..216]` on a 208-byte slice,
which panics (`oob`) instead of returning a length error. -/
theorem c2_from_bytes_panics :
    c2FailInput.length = 208 ∧ declaredLen c2FailInput = 216 ∧
    fromBytes c2FailInput = .oob := by
  decide

/-- Claim C3, divergence: `Record::nonce` converts the 14-byte slice
`144..158` into an 8-byte array, so the accessor panics (`none`) on every
buffer long enough to hold the field — in particular on every valid
Record. -/
theorem c3_nonce_panics (r : List Nat) (h : 158 ≤ r.length) : nonceOf r = none := by
  have h14 : (slice r 144 158).length = 14 := by
    unfold slice
    rw [List.length_drop, List.length_take]
    omega
  unfold nonceOf
  rw [if_neg (by rw [h14] <;> omega)]

/-- Witness for C3 at the minimal 208-byte buffer. -/
theorem c3_nonce_panics_witness : nonceOf (List.replicate 208 0) = none :=
  c3_nonce_panics (List.replicate 208 0) (by decide)

/-- Claim C10: when the declared total length fits both the 1 MiB ceiling
and the input, `Record::from_bytes` returns the view over exactly the first
`declaredLen` bytes, silently ignoring any trailing bytes. -/
theorem c10_from_bytes_view (input : List Nat) (h1 : 208 ≤ input.length)
    (h2 : declaredLen input ≤ 1048576) (h3 : declaredLen input ≤ input.length) :
    fromBytes input = .ok (input.take (declaredLen input)) := by
  unfold fromBytes
  rw [if_neg (by omega), if_neg (by omega), if_neg (by omega)]

/-- Witness for C10: a 300-byte all-zero input declares a 208-byte record
and the 92 trailing bytes are ignored. -/
theorem c10_from_bytes_view_witness :
    fromBytes (List.replicate 300 0) =
      .ok ((List.replicate 300 0).take (declaredLen (List.replicate 300 0))) ∧
    declaredLen (List.replicate 300 0) = 208 :=
  ⟨c10_from_bytes_view (List.replicate 300 0) (by decide) (by decide) (by decide),
   by decide⟩

/-- Claim C1 (amended): for valid parts — a 14-byte nonce, `u16` Kind,
in-range Timestamp, `u16` Flags with no reserved bit, `u16` app flags, at
most 65535 tag bytes, and a padded total within 1 MiB — `OwnedRecord::new`
(equivalently, writing into a zero-initialized buffer of exactly the record
length) succeeds, the result verifies, and every accessor returns exactly
its input. -/
theorem c1_roundtrip (c : Crypto) (sk nonce tags payload : List Nat)
    (kind ts flags app : Nat) (hn : nonce.length = 14) (hk : kind < 65536)
    (hts : ts < 2 ^ 48) (hf : flags < 65536) (hfr : flags &&& c.flagsAll = 0)
    (ha : app < 65536) (htag : tags.length ≤ 65535)
    (hpw : payload.length + 7 < 2 ^ 64) (hlen : recordLen tags payload ≤ 1048576) :
    ∃ r, ownedRecordNew c sk kind nonce ts flags app tags payload = .ok r ∧
      verify c r = .ok () ∧ kindOf r = kind ∧ flagsOf r = flags ∧
      appFlagsOf r = app ∧ timestampOf r = some ts ∧ tagsBytes r = tags ∧
      payloadBytes r = payload := by
  have hA := mkAddress_length c sk nonce kind hn
  have hP := pad8_eq payload.length hpw
  have hp32 : payload.length < 4294967296 := by
    unfold recordLen at hlen
    omega
  refine ⟨_,
    ownedNew_eq c sk nonce kind ts flags app tags payload hn (by omega) hpw hlen hfr,
    nf_verify c sk nonce kind ts flags app tags payload hn hts hf hfr htag hpw hlen,
    ?_, ?_, ?_, ?_, ?_, ?_⟩
  · rw [nf_kind c sk nonce (c.skPub sk) kind ts flags app tags payload hn
      (c.skPub_len sk)]
    omega
  · rw [nf_flags c sk _ ts flags app tags payload hA]
    omega
  · rw [nf_app c sk _ ts flags app tags payload hA]
    omega
  · exact nf_timestamp c sk _ ts flags app tags payload hA hts
  · exact nf_tagsBytes c sk _ ts flags app tags payload hA htag
  · exact nf_payloadBytes c sk _ ts flags app tags payload hA htag hp32

/-- Witness for C1 under the concrete collaborator instance `cryptoA`. -/
theorem c1_roundtrip_witness :
    ∃ r, ownedRecordNew cryptoA [] 5 (List.replicate 14 0) 1 0 0 [] [3, 4] = .ok r ∧
      verify cryptoA r = .ok () ∧ kindOf r = 5 ∧ flagsOf r = 0 ∧ appFlagsOf r = 0 ∧
      timestampOf r = some 1 ∧ tagsBytes r = [] ∧ payloadBytes r = [3, 4] :=
  c1_roundtrip cryptoA [] (List.replicate 14 0) [] [3, 4] 5 1 0 0 (by decide)
    (by decide) (by decide) (by decide) (by decide) (by decide) (by decide)
    (by decide) (by decide)

/-- Counterexample to C1 as stated: `Record::write_record` into a 208-byte
destination buffer whose byte 70 is nonzero succeeds on otherwise valid
parts, yet the written record fails verification, because the constructor
never zeroes the reserved bytes 70 and 71. -/
theorem c1_roundtrip_counterexample :
    dirtyBuffer.length = 208 ∧ recordLen [] [] = 208 ∧
    writeRecord cryptoA dirtyBuffer [] 0 (List.replicate 14 0) 0 0 0 [] [] =
      .ok dirtyResult ∧
    verify cryptoA dirtyResult = .error .idZerosAreNotZero := by
  decide

/-- Claim C5: the construction guards — tag bytes above 65536 or a padded
total above 1 MiB fail with the too-long error; within those limits a
too-short destination buffer fails with the end-of-output error; within all
limits (so in particular at a padded total of exactly 1 MiB) construction
is accepted; the empty-tags empty-payload record is exactly 208 bytes and
verifies; and every buffer shorter than 208 bytes is rejected by
verification as too short. -/
theorem c5_boundaries :
    (∀ (c : Crypto) (buffer sk A : List Nat) (ts flags app : Nat)
      (tags payload : List Nat), 65536 < tags.length →
      writeReplacementRecord c buffer sk A ts flags app tags payload =
        .error .recordTooLong) ∧
    (∀ (c : Crypto) (buffer sk A : List Nat) (ts flags app : Nat)
      (tags payload : List Nat), 1048576 < recordLen tags payload →
      writeReplacementRecord c buffer sk A ts flags app tags payload =
        .error .recordTooLong) ∧
    (∀ (c : Crypto) (buffer sk A : List Nat) (ts flags app : Nat)
      (tags payload : List Nat), tags.length ≤ 65536 →
      recordLen tags payload ≤ 1048576 → buffer.length < recordLen tags payload →
      writeReplacementRecord c buffer sk A ts flags app tags payload =
        .error .endOfOutput) ∧
    (∀ (c : Crypto) (buffer sk A : List Nat) (ts flags app : Nat)
      (tags payload : List Nat), tags.length ≤ 65536 →
      recordLen tags payload ≤ 1048576 → recordLen tags payload ≤ buffer.length →
      flags &&& c.flagsAll = 0 →
      ∃ r, writeReplacementRecord c buffer sk A ts flags app tags payload = .ok r) ∧
    (∀ (c : Crypto) (sk nonce : List Nat) (kind ts flags app : Nat),
      nonce.length = 14 → ts < 2 ^ 48 → flags < 65536 → flags &&& c.flagsAll = 0 →
      ∃ r, ownedRecordNew c sk kind nonce ts flags app [] [] = .ok r ∧
        r.length = 208 ∧ verify c r = .ok ()) ∧
    (∀ (c : Crypto) (r : List Nat), r.length < 208 →
      verify c r = .error .recordTooShort) := by
  refine ⟨?_, ?_, ?_, ?_, ?_, ?_⟩
  · intro c buffer sk A ts flags app tags payload h
    unfold writeReplacementRecord
    rw [if_pos h]
  · intro c buffer sk A ts flags app tags payload h
    unfold writeReplacementRecord
    by_cases h1 : 65536 < tags.length
    · rw [if_pos h1]
    · rw [if_neg h1, if_pos h]
  · intro c buffer sk A ts flags app tags payload h1 h2 h3
    unfold writeReplacementRecord
    rw [if_neg (by omega), if_neg (by omega), if_pos h3]
  · intro c buffer sk A ts flags app tags payload h1 h2 h3 h4
    unfold writeReplacementRecord
    rw [if_neg (by omega), if_neg (by omega), if_neg (by omega),
      if_neg (by simp [h4])]
    exact ⟨_, rfl⟩
  · intro c sk nonce kind ts flags app hn hts hf hfr
    have h208 : recordLen ([] : List Nat) [] = 208 := by decide
    refine ⟨_,
      ownedNew_eq c sk nonce kind ts flags app [] [] hn (by decide) (by decide)
        (by rw [h208]; norm_num) hfr,
      ?_,
      nf_verify c sk nonce kind ts flags app [] [] hn hts hf hfr (by decide)
        (by decide) (by rw [h208]; norm_num)⟩
    rw [length_nfRecord c sk _ ts flags app [] []
      (mkAddress_length c sk nonce kind hn) (by decide) (by decide), h208]
  · intro c r h
    unfold verify
    rw [if_neg (by omega), if_pos h]

/-- Witness for C5: 65537 tag bytes are rejected as too long, and an empty
destination buffer is rejected as too small for the 208-byte minimum. -/
theorem c5_boundaries_witness :
    writeReplacementRecord cryptoA [] [] [] 0 0 0 (List.replicate 65537 0) [] =
      .error .recordTooLong ∧
    writeReplacementRecord cryptoA [] [] [] 0 0 0 [] [] = .error .endOfOutput :=
  ⟨c5_boundaries.1 cryptoA [] [] [] 0 0 0 (List.replicate 65537 0) []
    (by rw [List.length_replicate] <;> omega),
   c5_boundaries.2.2.1 cryptoA [] [] [] 0 0 0 [] [] (by decide) (by decide)
    (by decide)⟩

/-- Claim C4 (amended): flipping a byte in the hashable region of a valid
record, with the truncated digests of the old and new hashable regions
distinct, makes verification fail — with the hash-mismatch error, unless
the flip lands in a length field (section-length mismatch) or corrupts one
of the embedded public keys (invalid-key error); it never succeeds. -/
theorem c4_tamper (c : Crypto) (r : List Nat) (i b : Nat)
    (hv : verify c r = .ok ()) (hi : 112 ≤ i) (hil : i < r.length)
    (hchg : (r.set i b)[i]? ≠ r[i]?)
    (hd : (c.hash ((r.set i b).drop 112)).take 40 ≠ (c.hash (r.drop 112)).take 40) :
    verify c (r.set i b) ≠ .ok () ∧
      (verify c (r.set i b) = .error .hashMismatch ∨
        verify c (r.set i b) = .error .sectionLengthMismatch ∨
        verify c (r.set i b) = .error .invalidPublicKey) := by
  obtain ⟨hle, hge, hsec, hhash⟩ := verify_ok_facts hv
  have hsl : slice (r.set i b) 72 112 = slice r 72 112 :=
    slice_set_of_le r i 72 112 b (by omega)
  have main : verify c (r.set i b) = .error .hashMismatch ∨
      verify c (r.set i b) = .error .sectionLengthMismatch ∨
      verify c (r.set i b) = .error .invalidPublicKey := by
    unfold verify
    simp only [List.length_set]
    rw [if_neg (by omega), if_neg (by omega)]
    by_cases hs : 208 + tagsPaddedLen (r.set i b) + payloadPaddedLen (r.set i b) ≠
        r.length
    · rw [if_pos hs]
      exact Or.inr (Or.inl rfl)
    · rw [if_neg hs]
      by_cases hk1 : c.pkValid (slice (r.set i b) 112 144) = false
      · rw [if_pos hk1]
        exact Or.inr (Or.inr rfl)
      · rw [if_neg hk1]
        by_cases hk2 : c.pkValid (slice (r.set i b) 160 192) = false
        · rw [if_pos hk2]
          exact Or.inr (Or.inr rfl)
        · rw [if_neg hk2]
          rw [if_pos (by rw [hsl, hhash]; exact hd)]
          exact Or.inl rfl
  refine ⟨?_, main⟩
  rcases main with h | h | h <;> rw [h] <;> simp

/-- Witness for C4: flipping byte 113 (inside the signing-key field, which
`cryptoB` keeps parseable) of the valid all-zero 208-byte record under
`cryptoB` changes the truncated digest and verification fails. -/
theorem c4_tamper_witness :
    verify cryptoB ((List.replicate 208 0).set 113 7) ≠ .ok () ∧
      (verify cryptoB ((List.replicate 208 0).set 113 7) = .error .hashMismatch ∨
        verify cryptoB ((List.replicate 208 0).set 113 7) =
          .error .sectionLengthMismatch ∨
        verify cryptoB ((List.replicate 208 0).set 113 7) =
          .error .invalidPublicKey) :=
  c4_tamper cryptoB (List.replicate 208 0) 113 7 (by decide) (by decide) (by decide)
    (by decide) (by decide)

/-- Counterexample to C4 as stated: under `cryptoC` the all-zero 208-byte
record is valid; flipping byte 202 (the tag-length field, inside the
hashable region, with the truncated digests distinct) makes verification
fail with the section-length mismatch error, which is neither a
hash-mismatch nor a signature error. -/
theorem c4_tamper_counterexample :
    verify cryptoC (List.replicate 208 0) = .ok () ∧
    (112 ≤ 202 ∧ 202 < (List.replicate 208 (0 : Nat)).length) ∧
    ((List.replicate 208 0).set 202 1)[202]? ≠ (List.replicate 208 (0 : Nat))[202]? ∧
    (cryptoC.hash (((List.replicate 208 0).set 202 1).drop 112)).take 40 ≠
      (cryptoC.hash ((List.replicate 208 (0 : Nat)).drop 112)).take 40 ∧
    verify cryptoC ((List.replicate 208 0).set 202 1) =
      .error .sectionLengthMismatch ∧
    RecErr.sectionLengthMismatch ≠ RecErr.hashMismatch ∧
    RecErr.sectionLengthMismatch ≠ RecErr.invalidSignature := by
  decide

set_option maxHeartbeats 1600000 in
/-- Claim C6 (amended): constructing with any reserved flag bit set fails
with the reserved-flags error once the length and buffer guards pass (an
earlier guard failure reports its own error first); verification of a
buffer whose flags field has a reserved bit set never succeeds, and
reports the same reserved-flags error exactly when every earlier check
(lengths, keys, hash, signature, timestamp) passes. -/
theorem c6_reserved_flags :
    (∀ (c : Crypto) (buffer sk A : List Nat) (ts flags app : Nat)
      (tags payload : List Nat), tags.length ≤ 65536 →
      recordLen tags payload ≤ 1048576 → recordLen tags payload ≤ buffer.length →
      flags &&& c.flagsAll ≠ 0 →
      writeReplacementRecord c buffer sk A ts flags app tags payload =
        .error .reservedFlagsUsed) ∧
    (∀ (c : Crypto) (r : List Nat), flagsOf r &&& c.flagsAll ≠ 0 →
      verify c r ≠ .ok ()) ∧
    (∀ (c : Crypto) (r : List Nat), r.length ≤ 1048576 → 208 ≤ r.length →
      208 + tagsPaddedLen r + payloadPaddedLen r = r.length →
      c.pkValid (slice r 112 144) = true → c.pkValid (slice r 160 192) = true →
      (c.hash (r.drop 112)).take 40 = slice r 72 112 →
      c.sigVerify (slice r 112 144) (c.hash (r.drop 112)) (slice r 0 64) = true →
      tsFromBytes (slice r 194 200) ≠ none → flagsOf r &&& c.flagsAll ≠ 0 →
      verify c r = .error .reservedFlagsUsed) := by
  refine ⟨?_, ?_, ?_⟩
  · intro c buffer sk A ts flags app tags payload h1 h2 h3 h4
    unfold writeReplacementRecord
    rw [if_neg (by omega), if_neg (by omega), if_neg (by omega), if_pos h4]
  · intro c r hfl hok
    unfold verify at hok
    split_ifs at hok with h1 h2 h3 h4 h5 h6 h7 h8 h9 h10 <;>
      first
        | exact Except.noConfusion hok
        | exact hfl (not_not.mp h9)
  · intro c r h1 h2 h3 hk1 hk2 hh hs hts hfl
    unfold verify
    rw [if_neg (by omega), if_neg (by omega), if_neg (by omega),
      if_neg (by simp [hk1]), if_neg (by simp [hk2]), if_neg (by simp [hh]),
      if_neg (by simp [hs]), if_neg hts, if_pos hfl]

/-- Witness for C6: a reserved flag bit makes construction fail with the
reserved-flags error when all earlier guards pass, and a hand-crafted valid
buffer whose only defect is the reserved bit fails verification with the
same error. -/
theorem c6_reserved_flags_witness :
    writeReplacementRecord cryptoA (List.replicate 208 0) [] (List.replicate 48 0)
      0 1 0 [] [] = .error .reservedFlagsUsed ∧
    verify cryptoA (setRange (List.replicate 208 0) 192 [1, 0]) =
      .error .reservedFlagsUsed :=
  ⟨c6_reserved_flags.1 cryptoA (List.replicate 208 0) [] (List.replicate 48 0)
    0 1 0 [] [] (by decide) (by decide) (by decide) (by decide),
   c6_reserved_flags.2.2 cryptoA (setRange (List.replicate 208 0) 192 [1, 0])
    (by decide) (by decide) (by decide) (by decide) (by decide) (by decide)
    (by decide) (by decide) (by decide)⟩

/-- Counterexample to C6 as stated: a buffer with a reserved flag bit set
and a wrong stored hash fails verification with the hash-mismatch error,
not the reserved-flags error, and a construction with a reserved bit but an
empty destination buffer fails with the end-of-output error first. -/
theorem c6_reserved_flags_counterexample :
    (flagsOf reservedFlagBadHash &&& cryptoA.flagsAll ≠ 0 ∧
      verify cryptoA reservedFlagBadHash = .error .hashMismatch ∧
      RecErr.hashMismatch ≠ RecErr.reservedFlagsUsed) ∧
    ((1 : Nat) &&& cryptoA.flagsAll ≠ 0 ∧
      writeReplacementRecord cryptoA [] [] [] 0 1 0 [] [] = .error .endOfOutput ∧
      RecErr.endOfOutput ≠ RecErr.reservedFlagsUsed) := by
  decide

/-- Claim C7 (amended): every byte sequence accepted by `verify` satisfies
`208 + pad8(tags_len) + pad8(payload_len) = total length`, and so does
every record `write_replacement_record` writes into any caller buffer —
hence every `write_record` and `OwnedRecord::new` output — from at most
65535 tag bytes (at exactly 65536 the `u16` cast truncates the declared
length and the invariant fails). -/
theorem c7_invariant :
    (∀ (c : Crypto) (r : List Nat), verify c r = .ok () →
      208 + tagsPaddedLen r + payloadPaddedLen r = r.length) ∧
    (∀ (c : Crypto) (buffer sk A tags payload r : List Nat) (ts flags app : Nat),
      A.length = 48 → tags.length ≤ 65535 → payload.length + 7 < 2 ^ 64 →
      writeReplacementRecord c buffer sk A ts flags app tags payload = .ok r →
      208 + tagsPaddedLen r + payloadPaddedLen r = r.length) := by
  constructor
  · intro c r hv
    exact (verify_ok_facts hv).2.2.1
  · intro c buffer sk A tags payload r ts flags app hA ht hpw hr
    unfold writeReplacementRecord at hr
    split_ifs at hr with h1 h2 h3 h4
    all_goals try exact Except.noConfusion hr
    injection hr with hr
    subst hr
    have hT := pad8_eq tags.length (by omega)
    have hP := pad8_eq payload.length hpw
    have hbuf : 208 + pad8 tags.length + pad8 payload.length ≤ buffer.length := by
      unfold recordLen at h3
      omega
    have hp32 : payload.length < 4294967296 := by
      unfold recordLen at h2
      omega
    have hb72 : 72 ≤ buffer.length := by omega
    rw [writeRB_gen c buffer sk A ts flags app tags payload hA (by omega) hpw hbuf]
    have hBlen :
        (c.sign sk (c.hash (wroteTail c buffer sk A ts flags app tags payload)) ++
          (beDigits 6 ts ++ (slice buffer 70 72 ++
            ((c.hash (wroteTail c buffer sk A ts flags app tags payload)).take 40 ++
              wroteTail c buffer sk A ts flags app tags payload)))).length =
        buffer.length := by
      rw [gen_decomp, List.length_append,
        length_genHdr c buffer sk A ts flags app tags payload hb72,
        length_wroteTail c buffer sk A ts flags app tags payload hA (by omega)
          hpw hbuf]
      omega
    have htl : tagsLen ((c.sign sk
          (c.hash (wroteTail c buffer sk A ts flags app tags payload)) ++
          (beDigits 6 ts ++ (slice buffer 70 72 ++
            ((c.hash (wroteTail c buffer sk A ts flags app tags payload)).take 40 ++
              wroteTail c buffer sk A ts flags app tags payload)))).take
          (recordLen tags payload)) = tags.length := by
      unfold tagsLen
      rw [slice_take _ (recordLen tags payload) 202 204 (by unfold recordLen <;> omega)]
      rw [gen_decomp]
      rw [slice_shift' _ _ 112 202 204
        (length_genHdr c buffer sk A ts flags app tags payload hb72)
        (by omega) (by omega)]
      norm_num
      rw [gen_wtLt c buffer sk A ts flags app tags payload hA]
      rw [leVal_leDigits]
      norm_num
      omega
    have hpl : payloadLen ((c.sign sk
          (c.hash (wroteTail c buffer sk A ts flags app tags payload)) ++
          (beDigits 6 ts ++ (slice buffer 70 72 ++
            ((c.hash (wroteTail c buffer sk A ts flags app tags payload)).take 40 ++
              wroteTail c buffer sk A ts flags app tags payload)))).take
          (recordLen tags payload)) = payload.length := by
      unfold payloadLen
      rw [slice_take _ (recordLen tags payload) 204 208 (by unfold recordLen <;> omega)]
      rw [gen_decomp]
      rw [slice_shift' _ _ 112 204 208
        (length_genHdr c buffer sk A ts flags app tags payload hb72)
        (by omega) (by omega)]
      norm_num
      rw [gen_wtLp c buffer sk A ts flags app tags payload hA]
      rw [leVal_leDigits]
      norm_num
      omega
    unfold tagsPaddedLen payloadPaddedLen
    rw [htl, hpl, List.length_take, hBlen]
    have e : recordLen tags payload ⊓ buffer.length = recordLen tags payload := by
      omega
    rw [e]
    unfold recordLen
    rfl

/-- Witness for C7: the minimal valid record for the verify side, and the
record written into the dirty 208-byte buffer for the construction side. -/
theorem c7_invariant_witness :
    (208 + tagsPaddedLen (List.replicate 208 0) +
      payloadPaddedLen (List.replicate 208 0) = (List.replicate 208 0).length) ∧
    (208 + tagsPaddedLen dirtyResult + payloadPaddedLen dirtyResult =
      dirtyResult.length) :=
  ⟨c7_invariant.1 cryptoA (List.replicate 208 0) (by decide),
   c7_invariant.2 cryptoA dirtyBuffer [] (mkAddress (List.replicate 14 0) 0
       (cryptoA.skPub [])) [] [] dirtyResult 0 0 0 (by decide) (by decide)
     (by decide) (by decide)⟩

lemma c7_cx_generic (tags : List Nat) (htl : tags.length = 65536) :
    ownedRecordNew cryptoA [] 0 (List.replicate 14 0) 0 0 0 tags [] =
      .ok (nfRecord cryptoA [] (mkAddress (List.replicate 14 0) 0 (cryptoA.skPub []))
        0 0 0 tags []) ∧
    208 + tagsPaddedLen (nfRecord cryptoA []
        (mkAddress (List.replicate 14 0) 0 (cryptoA.skPub [])) 0 0 0 tags []) +
      payloadPaddedLen (nfRecord cryptoA []
        (mkAddress (List.replicate 14 0) 0 (cryptoA.skPub [])) 0 0 0 tags []) ≠
    (nfRecord cryptoA [] (mkAddress (List.replicate 14 0) 0 (cryptoA.skPub []))
      0 0 0 tags []).length := by
  have hn : (List.replicate 14 (0 : Nat)).length = 14 := by decide
  have hA := mkAddress_length cryptoA [] (List.replicate 14 0) 0 hn
  have ht : tags.length ≤ 65536 := by omega
  have hpw : ([] : List Nat).length + 7 < 2 ^ 64 := by decide
  have hpad : pad8 tags.length = 65536 := by
    rw [htl]
    decide
  have hlen : recordLen tags [] ≤ 1048576 := by
    unfold recordLen
    rw [hpad]
    decide
  constructor
  · exact ownedNew_eq cryptoA [] (List.replicate 14 0) 0 0 0 0 tags [] hn ht hpw
      hlen (by decide)
  · unfold tagsPaddedLen payloadPaddedLen
    rw [nf_tagsLen cryptoA [] _ 0 0 0 tags [] hA,
      nf_payloadLen cryptoA [] _ 0 0 0 tags [] hA,
      length_nfRecord cryptoA [] _ 0 0 0 tags [] hA ht hpw]
    rw [htl]
    unfold recordLen
    rw [hpad]
    decide

/-- Counterexample to C7 as stated: constructing with exactly 65536 tag
bytes succeeds, but the record stores `65536 as u16 = 0` in its tag-length
field, so the declared padded sections no longer sum to the 65744-byte
total length. -/
theorem c7_invariant_counterexample :
    ownedRecordNew cryptoA [] 0 (List.replicate 14 0) 0 0 0
      (List.replicate 65536 1) [] =
      .ok (nfRecord cryptoA [] (mkAddress (List.replicate 14 0) 0 (cryptoA.skPub []))
        0 0 0 (List.replicate 65536 1) []) ∧
    208 + tagsPaddedLen (nfRecord cryptoA []
        (mkAddress (List.replicate 14 0) 0 (cryptoA.skPub [])) 0 0 0
        (List.replicate 65536 1) []) +
      payloadPaddedLen (nfRecord cryptoA []
        (mkAddress (List.replicate 14 0) 0 (cryptoA.skPub [])) 0 0 0
        (List.replicate 65536 1) []) ≠
    (nfRecord cryptoA [] (mkAddress (List.replicate 14 0) 0 (cryptoA.skPub []))
      0 0 0 (List.replicate 65536 1) []).length :=
  c7_cx_generic (List.replicate 65536 1) (List.length_replicate 65536 1)

/-- Claim C8 (amended): for two records produced by the record constructor
(whose big-endian Id time prefix is written from the same timestamp as the
little-endian header field), the earlier timestamp gives the smaller Id
under raw byte comparison. -/
theorem c8_id_ordering (c : Crypto)
    (skA skB nonceA nonceB tagsA payloadA tagsB payloadB rA rB : List Nat)
    (kindA kindB tsA tsB flagsA flagsB appA appB : Nat)
    (hnA : nonceA.length = 14) (htA : tagsA.length ≤ 65536)
    (hpwA : payloadA.length + 7 < 2 ^ 64) (hlenA : recordLen tagsA payloadA ≤ 1048576)
    (hfrA : flagsA &&& c.flagsAll = 0)
    (hnB : nonceB.length = 14) (htB : tagsB.length ≤ 65536)
    (hpwB : payloadB.length + 7 < 2 ^ 64) (hlenB : recordLen tagsB payloadB ≤ 1048576)
    (hfrB : flagsB &&& c.flagsAll = 0)
    (htsB : tsB < 2 ^ 48) (hlt : tsA < tsB)
    (hrA : ownedRecordNew c skA kindA nonceA tsA flagsA appA tagsA payloadA = .ok rA)
    (hrB : ownedRecordNew c skB kindB nonceB tsB flagsB appB tagsB payloadB = .ok rB) :
    listLtBytes (idBytes rA) (idBytes rB) = true := by
  rw [ownedNew_eq c skA nonceA kindA tsA flagsA appA tagsA payloadA hnA htA hpwA
    hlenA hfrA] at hrA
  rw [ownedNew_eq c skB nonceB kindB tsB flagsB appB tagsB payloadB hnB htB hpwB
    hlenB hfrB] at hrB
  injection hrA with hrA
  injection hrB with hrB
  subst hrA
  subst hrB
  rw [nf_id, nf_id]
  apply listLtBytes_append
  · rw [length_beDigits, length_beDigits]
  · refine beDigits_lt 6 tsA tsB hlt ?_
    have e6 : (256 : Nat) ^ 6 = 2 ^ 48 := by norm_num
    rw [e6]
    exact htsB

/-- Witness for C8: two constructor-built records with timestamps 1 and 2
have byte-ordered Ids. -/
theorem c8_id_ordering_witness :
    listLtBytes (idBytes ordRecordA) (idBytes ordRecordB) = true :=
  c8_id_ordering cryptoA [] [] (List.replicate 14 0) (List.replicate 14 0) [] [] [] []
    ordRecordA ordRecordB 0 0 1 2 0 0 0 0 (by decide) (by decide) (by decide)
    (by decide) (by decide) (by decide) (by decide) (by decide) (by decide)
    (by decide) (by decide) (by decide) (by decide) (by decide)

/-- Counterexample to C8 as stated: verification never compares the
big-endian Id time prefix with the little-endian timestamp field, so a
valid record with timestamp 5 but a forged prefix starting at 9 has a
larger Id than a valid record with timestamp 6. -/
theorem c8_id_ordering_counterexample :
    verify cryptoA forgedPrefixRecord = .ok () ∧
    verify cryptoA laterPlainRecord = .ok () ∧
    timestampOf forgedPrefixRecord = some 5 ∧
    timestampOf laterPlainRecord = some 6 ∧
    listLtBytes (idBytes forgedPrefixRecord) (idBytes laterPlainRecord) = false := by
  decide

end MosaicCore
